import Mathlib

/-!
Shallow embedding of the power-flow-tree layout engine
(`next.config.js` appended engine source, the `tree-algorithms` module of the
repository) in Lean 4, together with theorems settling the frozen claims
C1–C10 about it.

Conventions of the embedding:
* JavaScript `Map<string, T>` is an insertion-ordered association list
  (`AListK`); `Map.set` on an existing key updates the value in place keeping
  the key's position, matching JS semantics.  `Set<string>` is a duplicate-free
  insertion-ordered list.
* JavaScript numbers are embedded as `ℚ` (all arithmetic performed by the
  engine is exact on rationals; no transcendental functions occur).
  `Math.round` is `jsRound` (`⌊q + 1/2⌋`, the JS half-up rounding).
* `String.prototype.includes` is `strIncludes`; `toUpperCase`/`toLowerCase`
  map `Char.toUpper`/`Char.toLower` (all equipment strings are ASCII).
* `localeCompare` is modelled as code-point lexicographic comparison
  (`cmpStr`); for the ASCII, same-case names that occur in the concrete
  inputs below this coincides with the default locale collation.
* Optional / possibly-`undefined` string fields are `Option String`;
  JS truthiness of a string (`""` falsy) is `optTruthy` / `jsOr`.
* Unbounded `while` loops that terminate through a visited-set guard are
  given an explicit fuel that provably dominates the number of iterations
  the JS loop can perform; loops bounded by a constant in the source
  (10 collision iterations, 10 relocation attempts, depth ceiling 10,
  six-hop ancestor trace) use that constant directly.
-/

namespace PowerFlow

/- Rational arithmetic must evaluate inside `decide` proofs over the concrete
scenarios below; the arithmetic operations on `ℚ` are `@[irreducible]` by
default, which only affects elaboration-time transparency. -/
attribute [local semireducible] Rat.add Rat.mul Rat.sub Rat.inv

/-- Does `pre` occur at the head of `l`? (helper for `strIncludes`). -/
def startsWithList : List Char → List Char → Bool
  | [], _ => true
  | _ :: _, [] => false
  | p :: ps, c :: cs => p == c && startsWithList ps cs

/-- Does `needle` occur as a contiguous run inside `hay`? -/
def hasSubList (needle : List Char) : List Char → Bool
  | [] => startsWithList needle []
  | c :: cs => startsWithList needle (c :: cs) || hasSubList needle cs

/-- JS `s.includes(sub)`. -/
def strIncludes (s sub : String) : Bool := hasSubList sub.toList s.toList

/-- JS `s.toUpperCase()` (ASCII). -/
def strUpper (s : String) : String := String.mk (s.toList.map Char.toUpper)

/-- JS `s.toLowerCase()` (ASCII). -/
def strLower (s : String) : String := String.mk (s.toList.map Char.toLower)

/-- Truthiness of an optional JS string (`undefined` and `""` are falsy). -/
def optTruthy : Option String → Bool
  | some s => s ≠ ""
  | none => false

/-- JS `a || b` on optional strings. -/
def jsOr (a b : Option String) : Option String := if optTruthy a then a else b

/-- Code-point lexicographic comparison on character lists. -/
def cmpCharList : List Char → List Char → Int
  | [], [] => 0
  | [], _ :: _ => -1
  | _ :: _, [] => 1
  | a :: as, b :: bs =>
      if a.toNat < b.toNat then -1
      else if b.toNat < a.toNat then 1
      else cmpCharList as bs

/-- Code-point comparison standing in for `localeCompare` (see header note). -/
def cmpStr (a b : String) : Int := cmpCharList a.toList b.toList

/-- Floor of a rational (`num.fdiv den`; the denominator is positive). -/
def ratFloor (q : ℚ) : Int := Int.fdiv q.num q.den

/-- JS `Math.round`: `⌊q + 1/2⌋` (half-up). -/
def jsRound (q : ℚ) : Int := ratFloor (q + (1 : ℚ)/2)

/-- Insertion-ordered association list embedding a JS `Map`. -/
abbrev AListK (κ α : Type) := List (κ × α)

/-- `Map.get`. -/
def aget {κ α : Type} [DecidableEq κ] : AListK κ α → κ → Option α
  | [], _ => none
  | (k', v) :: rest, k => if k' = k then some v else aget rest k

/-- `Map.set`: update in place when the key exists, else append. -/
def aset {κ α : Type} [DecidableEq κ] : AListK κ α → κ → α → AListK κ α
  | [], k, v => [(k, v)]
  | (k', v') :: rest, k, v =>
      if k' = k then (k', v) :: rest else (k', v') :: aset rest k v

/-- `Map.has`. -/
def ahas {κ α : Type} [DecidableEq κ] (m : AListK κ α) (k : κ) : Bool :=
  (aget m k).isSome

/-- Duplicate-free insertion-ordered list embedding a JS `Set<string>`. -/
abbrev StrSet := List String

/-- `Set.has`. -/
def shas (s : StrSet) (k : String) : Bool := s.contains k

/-- `Set.add` (no-op when present, else append). -/
def sadd (s : StrSet) (k : String) : StrSet := if shas s k then s else s ++ [k]

/-- `EquipmentConnection` record (`from`/`to` are Lean keywords, so the id-set
fields are `fromIds`/`toIds`). -/
structure EquipmentConnection where
  id : String
  fromIds : List String
  toIds : List String
  sourceNumber : String
  fromName : String
  fromType : String
  toName : String
  toType : String
deriving Repr, DecidableEq

/-- `classifyConnectionType` (engine lines 127–145): priority chain
UPS+S2 → bypass, UPS→CUPP → bypass, S2 → redundant, else normal. -/
def classifyConnectionType (c : EquipmentConnection) : String :=
  if strIncludes c.fromType "UPS" && c.sourceNumber == "S2" then "bypass"
  else if strIncludes c.fromType "UPS" && strIncludes c.toType "CUPP" then "bypass"
  else if c.sourceNumber == "S2" then "redundant"
  else "normal"

/-- `isUPSEquipment`. -/
def isUPSEquipment (type name : String) : Bool :=
  strIncludes type "UPS" || strIncludes (strLower name) "ups"

/-- One upstream/downstream relation stored in the connection map. -/
structure Relation where
  id : String
  name : String
  type : String
  sourceNumber : String
  connectionType : String
deriving Repr, DecidableEq

/-- Connection-map entry. -/
structure ConnectionEntry where
  upstream : List Relation
  downstream : List Relation
deriving Repr, DecidableEq

abbrev ConnectionMap := AListK String ConnectionEntry

/-- First pass of `buildConnectionMap`: initialise an empty entry for every
id occurring in any record's origin or destination set. -/
def initEntries (conns : List EquipmentConnection) : ConnectionMap :=
  conns.foldl
    (fun m c =>
      (c.fromIds ++ c.toIds).foldl
        (fun m eid => if ahas m eid then m else aset m eid ⟨[], []⟩) m)
    []

/-- Second pass of `buildConnectionMap`: push the classified relation for
every origin×destination pair of one record. -/
def addRelations (m : ConnectionMap) (c : EquipmentConnection) : ConnectionMap :=
  let sourceNumber := if c.sourceNumber = "" then "S1" else c.sourceNumber
  let connectionType := classifyConnectionType c
  c.fromIds.foldl
    (fun m fromId =>
      c.toIds.foldl
        (fun m toId =>
          let m :=
            match aget m fromId with
            | some e =>
                aset m fromId
                  { e with downstream :=
                      e.downstream ++ [⟨toId, c.toName, c.toType, sourceNumber, connectionType⟩] }
            | none => m
          match aget m toId with
          | some e =>
              aset m toId
                { e with upstream :=
                    e.upstream ++ [⟨fromId, c.fromName, c.fromType, sourceNumber, connectionType⟩] }
          | none => m)
        m)
    m

/-- `buildConnectionMap` (engine lines 152–203). -/
def buildConnectionMap (conns : List EquipmentConnection) : ConnectionMap :=
  conns.foldl addRelations (initEntries conns)

/-- Alternate-parent record kept for bypass/redundant edges. -/
structure AltParent where
  id : String
  sourceNumber : String
  connectionType : String
deriving Repr, DecidableEq

/-- `Equipment` / `ProcessedEquipment` (one structure: JS adds the processed
fields onto the same object).  `loopMembers`/`loopGroupKey` embed
`loopGroupData` (its `startEquipment`/`endEquipment` fields are only used to
form the representative's display name, which is computed directly). -/
structure Equip where
  id : String
  name : String
  type : String
  level : Nat
  parentId : Option String := none
  sourceNumber : Option String := none
  sources : List String := []
  parentIds : List String := []
  path : List String := []
  branch : Option String := none
  connectionType : Option String := none
  alternateParents : List AltParent := []
  isLoopGroup : Bool := false
  loopGroupKey : String := ""
  loopMembers : List Equip

/-- `findEquipmentInfo` (engine lines 205–230): first record whose origin or
destination set names the id supplies name/type; level 0. -/
def findEquipmentInfo (equipmentId : String) :
    List EquipmentConnection → Option Equip
  | [] => none
  | c :: rest =>
      if c.fromIds.contains equipmentId then
        some { id := equipmentId, name := c.fromName, type := c.fromType,
               level := 0, sources := [], parentIds := [], loopMembers := [] }
      else if c.toIds.contains equipmentId then
        some { id := equipmentId, name := c.toName, type := c.toType,
               level := 0, sources := [], parentIds := [], loopMembers := [] }
      else findEquipmentInfo equipmentId rest

/-- `traverseUpstream` (engine lines 232–292).  Depth ceiling `level > 10`;
per-path visited set; a node already visited is still expanded when any of
its upstream relations is bypass-classified (`isBypassPath`); the visited set
passed to a child is a copy of the current one when the relation is bypass,
else the current one extended with the current id.  The `forEach` over the
upstream relations appends, per relation, the child record followed by its
recursive expansion, with no state threaded between iterations — hence the
`flatMap`.  `fuel` is structural (so the function computes); the canonical
entry uses `fuel = 11`, which the `level > 10` ceiling makes unreachable:
every call satisfies `fuel = 12 - level ≥ 1`. -/
def traverseUpstream : Nat → String → ConnectionMap → StrSet → Nat →
    List String → Option String → List Equip
  | 0, _, _, _, _, _, _ => []
  | fuel + 1, equipmentId, connectionMap, visited, level, path, branch =>
      if level > 10 then []
      else
        let isBypassPath := path.length > 0 &&
          (match aget connectionMap equipmentId with
           | some e => e.upstream.any (fun u => u.connectionType == "bypass")
           | none => false)
        if shas visited equipmentId && !isBypassPath then []
        else
          let currentPath := path ++ [equipmentId]
          match aget connectionMap equipmentId with
          | none => []
          | some connections =>
              connections.upstream.flatMap (fun u =>
                let currentBranch : String :=
                  match branch with
                  | some b => b
                  | none => if u.sourceNumber = "" then "S1" else u.sourceNumber
                let connectionType :=
                  if u.connectionType = "" then "normal" else u.connectionType
                let newVisited :=
                  if connectionType == "bypass" then visited
                  else sadd visited equipmentId
                let child : Equip :=
                  { id := u.id, name := u.name, type := u.type, level := level,
                    parentId := some equipmentId,
                    sourceNumber := some u.sourceNumber,
                    sources := [u.sourceNumber], parentIds := [equipmentId],
                    path := currentPath, branch := some currentBranch,
                    connectionType := some connectionType, loopMembers := [] }
                child ::
                  traverseUpstream fuel u.id connectionMap newVisited (level + 1)
                    currentPath (some currentBranch))

/-- `traverseDownstream` (engine lines 294–350): mirror of the upstream
traversal over the `downstream` relation lists (no branch threading). -/
def traverseDownstream : Nat → String → ConnectionMap → StrSet → Nat →
    List String → List Equip
  | 0, _, _, _, _, _ => []
  | fuel + 1, equipmentId, connectionMap, visited, level, path =>
      if level > 10 then []
      else
        let isBypassPath := path.length > 0 &&
          (match aget connectionMap equipmentId with
           | some e => e.downstream.any (fun u => u.connectionType == "bypass")
           | none => false)
        if shas visited equipmentId && !isBypassPath then []
        else
          let currentPath := path ++ [equipmentId]
          match aget connectionMap equipmentId with
          | none => []
          | some connections =>
              connections.downstream.flatMap (fun u =>
                let connectionType :=
                  if u.connectionType = "" then "normal" else u.connectionType
                let newVisited :=
                  if connectionType == "bypass" then visited
                  else sadd visited equipmentId
                let child : Equip :=
                  { id := u.id, name := u.name, type := u.type, level := level,
                    parentId := some equipmentId,
                    sourceNumber := some u.sourceNumber,
                    sources := [u.sourceNumber], parentIds := [equipmentId],
                    path := currentPath,
                    connectionType := some connectionType, loopMembers := [] }
                child ::
                  traverseDownstream fuel u.id connectionMap newVisited
                    (level + 1) currentPath)

instance : Inhabited Equip :=
  ⟨{ id := "", name := "", type := "", level := 0, loopMembers := [] }⟩

/-- JS `a || b` where `b` is a plain (non-optional) string. -/
def jsOrD (a : Option String) (b : String) : String :=
  if optTruthy a then a.getD b else b

/-- Stable insertion into a list sorted by a JS comparator (new element goes
after existing comparator-equal elements, matching stable `Array.sort`). -/
def insertByCmp {α : Type} (cmp : α → α → Int) (x : α) : List α → List α
  | [] => [x]
  | y :: ys => if cmp x y < 0 then x :: y :: ys else y :: insertByCmp cmp x ys

/-- Stable sort by a JS comparator (`Array.prototype.sort` is stable). -/
def sortByCmp {α : Type} (cmp : α → α → Int) (l : List α) : List α :=
  l.foldl (fun acc x => insertByCmp cmp x acc) []

/-- `resolveBranchFromPath` (engine lines 352–365). -/
def resolveBranchFromPath (eq : Equip) (connectionMap : ConnectionMap) :
    Option String :=
  match eq.path with
  | [] => jsOr eq.branch eq.sourceNumber
  | _ :: _ =>
      let downstreamId := eq.path.getLastD ""
      let relation := (aget connectionMap downstreamId).bind
          (fun e => e.upstream.find? (fun u => u.id == eq.id))
      match relation with
      | some r =>
          if r.sourceNumber == "S2" then some "S2"
          else if r.sourceNumber == "S1" then some "S1"
          else jsOr eq.branch eq.sourceNumber
      | none => jsOr eq.branch eq.sourceNumber

/-- The per-record body of the deduplication `forEach` of
`processEquipmentForVisualization` (engine lines 371–454): first occurrence
installs the entry; later occurrences merge sources/parents/alternates and
resolve branch/level conflicts (utility-convergence forces S1; closer path or
S2-on-level-tie adopts the new path; else S1 candidates overwrite branch). -/
def mergeOne (connectionMap : ConnectionMap) (m : AListK String Equip)
    (eq : Equip) : AListK String Equip :=
  let branchFromPath := resolveBranchFromPath eq connectionMap
  let initialSources : List String :=
    match eq.sourceNumber with
    | some s => if s ≠ "" then [s] else []
    | none => []
  match aget m eq.id with
  | none =>
      let entry : Equip :=
        { eq with
          sources := if initialSources.length ≠ 0 then initialSources else ["S1"],
          parentIds :=
            (match eq.parentId with
             | some p => if p ≠ "" then [p] else []
             | none => []),
          alternateParents :=
            (if optTruthy eq.connectionType && (eq.connectionType).getD "" ≠ "normal" then
              [{ id := (eq.parentId).getD "",
                 sourceNumber := jsOrD eq.sourceNumber "S1",
                 connectionType := (eq.connectionType).getD "" }]
            else []),
          branch := jsOr branchFromPath eq.branch }
      aset m eq.id entry
  | some existing0 =>
      let branchCandidate := jsOr branchFromPath (jsOr eq.branch eq.sourceNumber)
      let e := existing0
      let e :=
        match eq.sourceNumber with
        | some s =>
            if s ≠ "" && !(e.sources.contains s) then
              { e with sources := e.sources ++ [s] }
            else e
        | none => e
      let e :=
        match eq.parentId with
        | some p =>
            if p ≠ "" && !(e.parentIds.contains p) then
              { e with parentIds := e.parentIds ++ [p] }
            else e
        | none => e
      let e :=
        if optTruthy eq.connectionType && (eq.connectionType).getD "" ≠ "normal"
            && optTruthy eq.parentId then
          let ap : AltParent :=
            { id := (eq.parentId).getD "",
              sourceNumber := jsOrD eq.sourceNumber "S1",
              connectionType := (eq.connectionType).getD "" }
          if e.alternateParents.any
              (fun alt => alt.id == ap.id && alt.connectionType == ap.connectionType) then
            e
          else { e with alternateParents := e.alternateParents ++ [ap] }
        else e
      let isCloserPath := eq.level < e.level
      let branchConflict := optTruthy branchCandidate && optTruthy e.branch
          && branchCandidate ≠ e.branch
      let isUtilityOrGenerator := strIncludes eq.type "UTILITY"
          || strIncludes eq.type "GEN" || strIncludes eq.type "MV-SWGR"
      let e :=
        if isUtilityOrGenerator && e.sources.contains "S1" && e.sources.contains "S2" then
          { e with branch := some "S1", sourceNumber := some "S1" }
        else if isCloserPath
            || (branchConflict && branchCandidate = some "S2" && eq.level = e.level) then
          let e := { e with level := eq.level, parentId := eq.parentId, path := eq.path }
          let e :=
            match eq.sourceNumber with
            | some s => if s ≠ "" then { e with sourceNumber := some s } else e
            | none => e
          let e := if optTruthy branchCandidate then { e with branch := branchCandidate } else e
          let e := if optTruthy eq.connectionType then { e with connectionType := eq.connectionType } else e
          e
        else
          if !(optTruthy e.branch) && optTruthy branchCandidate then
            { e with branch := branchCandidate }
          else if branchCandidate = some "S1" then
            { e with branch := some "S1" }
          else e
      aset m eq.id e

def isLowerAZ (c : Char) : Bool := 'a' ≤ c && c ≤ 'z'

/-- The last digit character occurring in `cs`. -/
def lastDigitCh (cs : List Char) : Option Char := (cs.filter Char.isDigit).getLast?

/-- One anchored attempt of the ring-bus pattern `/cds[^a-z]*(\d+)[^a-z]*r/`
at the head of `cs`.  Under greedy backtracking the two `[^a-z]*` pieces and
`\d+` together consume exactly the maximal non-lowercase-letter run after
`cds` (every `r` is a letter, so the run cannot stop early), the run must be
followed by a literal `r` and contain at least one digit, and the first
backtracking choice that succeeds leaves `\d+` exactly the last digit of the
run — so the capture is that single digit. -/
def matchCdsAt (cs : List Char) : Option Char :=
  if startsWithList ['c', 'd', 's'] cs then
    let rest := cs.drop 3
    let run := rest.takeWhile (fun c => !(isLowerAZ c))
    match rest.drop run.length with
    | 'r' :: _ => lastDigitCh run
    | _ => none
  else none

/-- Leftmost-match scan for the ring-bus pattern. -/
def cdsScan : List Char → Option Char
  | [] => none
  | c :: cs =>
      match matchCdsAt (c :: cs) with
      | some d => some d
      | none => cdsScan cs

/-- Captured digit of `name.match(/cds[^a-z]*(\d+)[^a-z]*r/)` (engine line 473),
`name` already lower-cased. -/
def cdsRingDigit (name : String) : Option Char := cdsScan name.toList

/-- `LoopGroup` accumulator (equipment list, key, merged source labels). -/
structure LoopGroupAcc where
  equipment : List Equip
  groupKey : String
  sources : List String

/-- Loop-pattern detection of `processLoopGroups` (engine lines 468–499):
ring-bus name pattern, overridden by the ATS-with-multiple-sources pattern. -/
def detectLoopGroups (equipment : List Equip) : AListK String LoopGroupAcc :=
  equipment.foldl
    (fun groups eq =>
      let name := strLower eq.name
      let key1 : Option String :=
        match cdsRingDigit name with
        | some d => some ("CDS-" ++ String.mk [d] ++ "R-RING")
        | none => none
      let groupKey : Option String :=
        if strIncludes name "ats" && eq.sources.length > 1 then
          some (eq.name ++ "-DUAL-SOURCE")
        else key1
      match groupKey with
      | none => groups
      | some k =>
          let g := (aget groups k).getD ⟨[], k, []⟩
          let g :=
            { g with
              equipment := g.equipment ++ [eq],
              sources := eq.sources.foldl
                (fun acc s => if acc.contains s then acc else acc ++ [s]) g.sources }
          aset groups k g)
    []

/-- One step of the `closestToSelected` reduce of `processLoopGroups`
(engine lines 526–541): a smaller level wins, a level tie upgrades to an
S2-branched candidate. -/
def closestStep (best candidate : Equip) : Equip :=
  if candidate.level < best.level then candidate
  else if candidate.level = best.level then
    let candidateBranch := jsOr (jsOr candidate.branch candidate.sourceNumber)
        (candidate.sources.find? (fun s => s == "S1" || s == "S2"))
    let bestBranch := jsOr (jsOr best.branch best.sourceNumber)
        (best.sources.find? (fun s => s == "S1" || s == "S2"))
    if candidateBranch = some "S2" && bestBranch ≠ some "S2" then candidate
    else best
  else best

/-- The `closestToSelected` reduce (engine lines 526–541), folding
`closestStep` from the first member. -/
def closestMember (members : List Equip) : Option Equip :=
  match members with
  | [] => none
  | first :: _ => some (members.foldl closestStep first)

/-- State threaded through the representative-building pass. -/
structure LoopRepState where
  processed : List Equip
  groupedIds : StrSet
  replacementMap : AListK String String

/-- The per-group body (`loopGroups.forEach`) of the representative
construction (engine lines 506–597): a group of ≥2 members yields one
`RING BUS` representative whose level/parent/branch come from the member
closest to the root. -/
def buildLoopRepStep (connectionMap : ConnectionMap) (st : LoopRepState)
    (kg : String × LoopGroupAcc) : LoopRepState :=
      let groupKey := kg.1
      let group := kg.2
      if group.equipment.length > 1 then
        let sortedEquipment := sortByCmp (fun a b => cmpStr a.name b.name) group.equipment
        let startEquipment := sortedEquipment.headD default
        let endEquipment := sortedEquipment.getLastD default
        let closest := (closestMember sortedEquipment).getD default
        let prioritizedSource := closest.sources.find? (fun s => s == "S1" || s == "S2")
        let branchHint := jsOr (jsOr closest.branch closest.sourceNumber) prioritizedSource
        let loopParentId : Option String :=
          if optTruthy closest.parentId then closest.parentId
          else
            match closest.parentIds with
            | [] => none
            | p :: _ => some p
        let parentRelation : Option Relation :=
          match loopParentId with
          | some pid =>
              (aget connectionMap pid).bind
                (fun e => e.upstream.find?
                  (fun u => group.equipment.any (fun mem => mem.id == u.id)))
          | none => none
        let loopBranch := jsOr branchHint (jsOr (parentRelation.map (·.sourceNumber))
            (if group.sources.contains "S2" && !(group.sources.contains "S1") then some "S2"
             else if group.sources.contains "S1" then some "S1"
             else none))
        let rep : Equip :=
          { id := "loop-" ++ groupKey,
            name := startEquipment.name ++ " ↔ " ++ endEquipment.name,
            type := "RING BUS",
            level := closest.level,
            parentId := loopParentId,
            sources := group.sources,
            parentIds := (match loopParentId with | some p => [p] | none => []),
            isLoopGroup := true,
            branch := loopBranch,
            loopGroupKey := groupKey,
            loopMembers := sortedEquipment }
        { processed := st.processed ++ [rep],
          groupedIds := group.equipment.foldl (fun s mem => sadd s mem.id) st.groupedIds,
          replacementMap := group.equipment.foldl
            (fun rm mem => aset rm mem.id rep.id) st.replacementMap }
      else st

/-- Representative construction of `processLoopGroups` (engine lines
506–597), folding the per-group step over the detected groups. -/
def buildLoopReps (groups : AListK String LoopGroupAcc)
    (connectionMap : ConnectionMap) : LoopRepState :=
  groups.foldl (buildLoopRepStep connectionMap) ⟨[], [], []⟩

/-- Parent-reference rewiring of `processLoopGroups` (engine lines 607–614). -/
def rewireParents (replacementMap : AListK String String) (eq : Equip) : Equip :=
  let eq :=
    match eq.parentId with
    | some pid =>
        if pid ≠ "" then
          match aget replacementMap pid with
          | some rid => { eq with parentId := some rid }
          | none => eq
        else eq
    | none => eq
  let newParentIds := eq.parentIds.map
    (fun pid =>
      match aget replacementMap pid with
      | some rid => if rid ≠ "" then rid else pid
      | none => pid)
  { eq with parentIds := newParentIds }

/-- The post-rewiring level fix of `processLoopGroups` (engine lines 616–637):
walk the array in order, setting each equipment's level to its (current)
parent's level + 1 when that parent is present in the dataset.  The array is
modelled through an id-keyed map; ids are unique for deduplicated input. -/
def levelFix (arr : List Equip) : List Equip :=
  let ids := arr.map (·.id)
  let m0 : AListK String Equip := arr.foldl (fun m eq => aset m eq.id eq) []
  let m := ids.foldl
    (fun m i =>
      match aget m i with
      | none => m
      | some eq =>
          match eq.parentId with
          | some pid =>
              if pid ≠ "" then
                match aget m pid with
                | some parent => aset m i { eq with level := parent.level + 1 }
                | none => m
              else m
          | none => m)
    m0
  ids.map (fun i => (aget m i).getD default)

/-- `processLoopGroups` (engine lines 464–641). -/
def processLoopGroups (equipment : List Equip) (connectionMap : ConnectionMap) :
    List Equip :=
  let groups := detectLoopGroups equipment
  let st := buildLoopReps groups connectionMap
  let processed := st.processed ++ equipment.filter (fun eq => !(shas st.groupedIds eq.id))
  let processed := processed.map (rewireParents st.replacementMap)
  levelFix processed

/-- `processEquipmentForVisualization` (engine lines 367–462). -/
def processEquipmentForVisualization (equipment : List Equip)
    (connectionMap : ConnectionMap) : List Equip :=
  let equipmentById := equipment.foldl (mergeOne connectionMap) []
  processLoopGroups (equipmentById.map (·.2)) connectionMap

/-- State of the coverage-completion BFS (array order, id-keyed contents,
queue, visited). -/
structure CoverageState where
  order : List String
  m : AListK String Equip
  queue : List (String × Nat)
  visited : StrSet

/-- Per-parent body of the coverage BFS (engine lines 665–711): synthesize a
missing ancestor with inferred metadata, or union parent/source sets into the
existing record; enqueue the parent either way. -/
def coverageProcessParent (idLevel : String × Nat) (st : CoverageState)
    (parent : Relation) : CoverageState :=
  let currentId := idLevel.1
  let parentLevel := idLevel.2 + 1
  match aget st.m parent.id with
  | none =>
      let parentName := if parent.name = "" then "Unknown Equipment" else parent.name
      let parentType := if parent.type = "" then "UNKNOWN" else parent.type
      let inferred : Equip :=
        { id := parent.id, name := parentName, type := parentType,
          level := parentLevel, parentId := some currentId,
          sourceNumber := some parent.sourceNumber,
          sources := if parent.sourceNumber ≠ "" then [parent.sourceNumber] else ["S1"],
          parentIds := [currentId],
          branch := some (if parent.sourceNumber ≠ "" then parent.sourceNumber else "S1"),
          connectionType :=
            some (if parent.connectionType ≠ "" then parent.connectionType else "normal"),
          path := [currentId], loopMembers := [] }
      { st with
        order := st.order ++ [parent.id],
        m := aset st.m parent.id inferred,
        queue := st.queue ++ [(parent.id, parentLevel)] }
  | some existing =>
      let e := existing
      let e := if e.parentIds.contains currentId then e
               else { e with parentIds := e.parentIds ++ [currentId] }
      let e := if parent.sourceNumber ≠ "" && !(e.sources.contains parent.sourceNumber) then
                 { e with sources := e.sources ++ [parent.sourceNumber] }
               else e
      let e := if optTruthy e.parentId then e else { e with parentId := some currentId }
      let e := if !(optTruthy e.branch) && parent.sourceNumber ≠ "" then
                 { e with branch := some parent.sourceNumber }
               else e
      { st with m := aset st.m parent.id e,
                queue := st.queue ++ [(parent.id, parentLevel)] }

/-- The `while (queue.length)` loop of `ensureCompleteUpstreamCoverage`,
with fuel dominating the iteration count (each processed id is visited once
and enqueues at most its upstream-relation count). -/
def coverageLoop : Nat → ConnectionMap → CoverageState → CoverageState
  | 0, _, st => st
  | fuel + 1, cm, st =>
      match st.queue with
      | [] => st
      | (currentId, level) :: rest =>
          let st := { st with queue := rest }
          if shas st.visited currentId then coverageLoop fuel cm st
          else
            let st := { st with visited := sadd st.visited currentId }
            match aget cm currentId with
            | none => coverageLoop fuel cm st
            | some connections =>
                coverageLoop fuel cm
                  (connections.upstream.foldl (coverageProcessParent (currentId, level)) st)

/-- Total number of upstream relations in the map (fuel bound). -/
def totalUpstreamCount (cm : ConnectionMap) : Nat :=
  cm.foldl (fun acc e => acc + e.2.upstream.length) 0

/-- `ensureCompleteUpstreamCoverage` (engine lines 643–715). -/
def ensureCompleteUpstreamCoverage (selectedEquipment : Equip)
    (upstream : List Equip) (connectionMap : ConnectionMap) : List Equip :=
  let st0 : CoverageState :=
    { order := upstream.map (·.id),
      m := upstream.foldl (fun m eq => aset m eq.id eq) [],
      queue := [(selectedEquipment.id, selectedEquipment.level)],
      visited := [] }
  let st := coverageLoop
      (2 + totalUpstreamCount connectionMap + connectionMap.length)
      connectionMap st0
  st.order.map (fun i => (aget st.m i).getD default)

/-! Layout constants (engine lines 33–65). -/

def nodeWidth : ℚ := 180
def nodeHeight : ℚ := 70
def minimumNodeSpacing : ℚ := 200
def nodeCenterSpacing : ℚ := nodeWidth + minimumNodeSpacing
def levelSpacing : ℚ := 150
def localBranchOffset : ℚ := 120
def branchSpreadIncrement : ℚ := 60
def centerX : ℚ := 400
def centerY : ℚ := 300
def lateralUpsOffset : ℚ := nodeWidth / 2 + 100
def upsMdsPairOffset : ℚ := nodeWidth / 2 + 100
def collisionPadding : ℚ := 12
def categoryVerticalSpacing : ℚ := 150

def categoryVerticalOffsets : AListK String ℚ :=
  [("SELECTED", 0), ("PDU", 0), ("ATS", -1), ("RING_BUS", -2), ("CDS", -2),
   ("UPS_WITH_MDS", -3), ("UPS", -3), ("MDS", -3), ("SWGR", -3),
   ("DISTRIBUTION", -3), ("GEN", -4), ("GENERATOR", -4), ("TX", -4),
   ("TRANSFORMER", -4), ("UTILITY", -5), ("SUBSTATION", -5), ("END_EQUIPMENT", 1)]

/-- JS `s || d` on plain strings (`""` falsy). -/
def strOrD (s d : String) : String := if s = "" then d else s

/-- `categorizeByType` (engine lines 718–737). -/
def categorizeByType (type : String) : String :=
  let typeUpper := strUpper type
  if strIncludes typeUpper "UTILITY" || strIncludes typeUpper "PADMOUNT"
      || strIncludes typeUpper "PAD MOUNT" then "UTILITY"
  else if strIncludes typeUpper "MDS" || strIncludes typeUpper "SWGR"
      || strIncludes typeUpper "SWITCHGEAR" then "DISTRIBUTION"
  else if strIncludes typeUpper "UPS" then "DISTRIBUTION"
  else if strIncludes typeUpper "TX" || strIncludes typeUpper "TRANSFORMER"
      || strIncludes typeUpper "XFMR" then "TRANSFORMER"
  else if strIncludes typeUpper "GEN" || strIncludes typeUpper "GENERATOR" then "GENERATOR"
  else "END_EQUIPMENT"

/-- `determineBranch` (engine lines 739–751). -/
def determineBranch (equipment : Equip) : String :=
  if equipment.branch = some "S1" || equipment.branch = some "S2" then
    (equipment.branch).getD "S1"
  else if equipment.sourceNumber = some "S1" || equipment.sourceNumber = some "S2" then
    (equipment.sourceNumber).getD "S1"
  else if equipment.sources.contains "S2" then "S2"
  else "S1"

/-- `isLateralConnection` (engine lines 753–768): a UPS that both feeds and
is fed by its canonical parent. -/
def isLateralConnection (equipment : Equip) (connectionMap : ConnectionMap) : Bool :=
  let isUps := strIncludes (strUpper equipment.type) "UPS"
  match equipment.parentId with
  | none => false
  | some parentId =>
      if !isUps || parentId = "" then false
      else
        match aget connectionMap equipment.id with
        | none => false
        | some connections =>
            connections.downstream.any (fun child => child.id == parentId) &&
            connections.upstream.any (fun p => p.id == parentId)

/-- Lateral-placement payload. -/
structure LateralInfo where
  parentId : String
  direction : String
  offset : ℚ
deriving Repr, DecidableEq

/-- `EquipmentLayoutInfo`. -/
structure EquipmentLayoutInfo where
  equipment : Equip
  branch : String
  typeCategory : String
  level : Nat
  isLateral : Bool
  parentId : Option String
  lateralInfo : Option LateralInfo := none

/-- `classifyEquipmentForLayout` (engine lines 770–808): laterality is the
bidirectional-UPS rule widened by UPS-whose-parent-relation-is-MDS; UPS
laterals always pair to the left. -/
def classifyEquipmentForLayout (equipment : List Equip)
    (connectionMap : ConnectionMap) : List EquipmentLayoutInfo :=
  equipment.map (fun eq =>
    let isUps := strIncludes (strUpper eq.type) "UPS"
    let parentRelation : Option Relation :=
      match eq.parentId with
      | some pid =>
          if pid ≠ "" then
            (aget connectionMap eq.id).bind
              (fun e => e.upstream.find? (fun parent => parent.id == pid))
          else none
      | none => none
    let parentIsMds :=
      match parentRelation with
      | some r => strIncludes (strUpper r.type) "MDS"
      | none => false
    let isLateral := isLateralConnection eq connectionMap || (isUps && parentIsMds)
    let lateralInfo : Option LateralInfo :=
      if isLateral && optTruthy eq.parentId then
        let branch := determineBranch eq
        some { parentId := (eq.parentId).getD "",
               direction := if isUps then "left" else if branch = "S2" then "right" else "left",
               offset := lateralUpsOffset }
      else none
    { equipment := eq, branch := determineBranch eq,
      typeCategory := categorizeByType eq.type, level := eq.level,
      isLateral := isLateral, parentId := eq.parentId, lateralInfo := lateralInfo })

/-- Child buckets of a placement node. -/
structure PlacementChildren where
  s1 : List String
  s2 : List String
  laterals : List String

/-- `PlacementNode`. -/
structure PlacementNode where
  id : String
  parentId : Option String
  info : EquipmentLayoutInfo
  children : PlacementChildren

/-- `PlacementTree`. -/
structure PlacementTree where
  root : String
  rootId : String
  nodes : AListK String PlacementNode

/-- State of the placement-tree BFS. -/
structure PTState where
  nodes : AListK String PlacementNode
  queue : List String
  visited : StrSet

/-- Per-upstream-relation body of the placement-tree BFS (engine lines
866–892): the upstream neighbour becomes a lateral / S2 / S1 child of the
current node and is enqueued when unvisited. -/
def ptProcessParent (currentId : String)
    (layoutInfoMap : AListK String EquipmentLayoutInfo) (st : PTState)
    (parent : Relation) : PTState :=
  match aget layoutInfoMap parent.id with
  | none => st
  | some parentInfo =>
      match aget st.nodes parent.id with
      | none => st
      | some parentNode =>
          let reparented := { parentNode with parentId := some currentId }
          let st := { st with nodes := aset st.nodes parent.id reparented }
          match aget st.nodes currentId with
          | none => st
          | some node =>
              if parentInfo.isLateral then
                let node := { node with children :=
                    { node.children with laterals := node.children.laterals ++ [parent.id] } }
                let st := { st with nodes := aset st.nodes currentId node }
                if shas st.visited parent.id then st
                else { st with queue := st.queue ++ [parent.id] }
              else
                let node :=
                  if parentInfo.branch = "S2" then
                    { node with children :=
                        { node.children with s2 := node.children.s2 ++ [parent.id] } }
                  else
                    { node with children :=
                        { node.children with s1 := node.children.s1 ++ [parent.id] } }
                let st := { st with nodes := aset st.nodes currentId node }
                if shas st.visited parent.id then st
                else { st with queue := st.queue ++ [parent.id] }

/-- The `while (queue.length)` loop of `buildPlacementTree`, fuelled. -/
def buildPlacementTreeLoop : Nat → ConnectionMap →
    AListK String EquipmentLayoutInfo → PTState → PTState
  | 0, _, _, st => st
  | fuel + 1, cm, lim, st =>
      match st.queue with
      | [] => st
      | currentId :: rest =>
          let st := { st with queue := rest }
          if shas st.visited currentId then buildPlacementTreeLoop fuel cm lim st
          else
            let st := { st with visited := sadd st.visited currentId }
            match aget st.nodes currentId with
            | none => buildPlacementTreeLoop fuel cm lim st
            | some _ =>
                match aget cm currentId with
                | none => buildPlacementTreeLoop fuel cm lim st
                | some connections =>
                    buildPlacementTreeLoop fuel cm lim
                      (connections.upstream.foldl (ptProcessParent currentId lim) st)

/-- `buildPlacementTree` (engine lines 830–896). -/
def buildPlacementTree (selected : Equip)
    (layoutInfoMap : AListK String EquipmentLayoutInfo)
    (connectionMap : ConnectionMap) : PlacementTree :=
  let nodes0 : AListK String PlacementNode := layoutInfoMap.foldl
    (fun m kv =>
      let info := kv.2
      aset m info.equipment.id
        { id := info.equipment.id, parentId := info.parentId, info := info,
          children := ⟨[], [], []⟩ })
    []
  let st := buildPlacementTreeLoop
      (2 + totalUpstreamCount connectionMap + connectionMap.length) connectionMap
      layoutInfoMap { nodes := nodes0, queue := [selected.id], visited := [] }
  { root := selected.id, rootId := selected.id, nodes := st.nodes }

/-- `LayoutMetrics`. -/
structure LayoutMetrics where
  maxRowWidthPx : ℚ
  maxRowCount : Nat
  firstSplitLevel : Option Nat

/-- `computeRowWidthPx` (engine lines 898–901). -/
def computeRowWidthPx (nodeCount : Nat) : ℚ :=
  if nodeCount ≤ 1 then nodeWidth else nodeCenterSpacing * ((nodeCount : ℚ) - 1)

/-- `computeLayoutMetrics` (engine lines 903–932). -/
def computeLayoutMetrics (tree : PlacementTree) : LayoutMetrics :=
  let res := tree.nodes.foldl
    (fun (acc : AListK Nat Nat × Nat × Option Nat) kv =>
      let node := kv.2
      let levelCounts := acc.1
      let maxRowCount := acc.2.1
      let firstSplitLevel := acc.2.2
      let lc :=
        if !node.info.isLateral then
          let count := ((aget levelCounts node.info.level).getD 0) + 1
          (aset levelCounts node.info.level count,
           if count > maxRowCount then count else maxRowCount)
        else (levelCounts, maxRowCount)
      let firstSplitLevel :=
        if firstSplitLevel = none && node.children.s1.length > 0
            && node.children.s2.length > 0 then
          some node.info.level
        else firstSplitLevel
      (lc.1, lc.2, firstSplitLevel))
    ([], 0, none)
  let maxRowCount := if res.2.1 < 1 then 1 else res.2.1
  { maxRowWidthPx := computeRowWidthPx maxRowCount, maxRowCount := maxRowCount,
    firstSplitLevel := res.2.2 }

/-- `createLevelBaselines` (engine lines 934–948):
`baseline(level) = centerY − (level − selectedLevel) · levelSpacing`. -/
def createLevelBaselines (layoutInfo : List EquipmentLayoutInfo)
    (selectedLevel : Nat) : AListK Nat ℚ :=
  layoutInfo.foldl
    (fun baselines info =>
      if ahas baselines info.level then baselines
      else aset baselines info.level
          (centerY - ((info.level : ℚ) - (selectedLevel : ℚ)) * levelSpacing))
    [(selectedLevel, centerY)]

/-- `SubtreeDimensions`. -/
structure SubtreeDimensions where
  width : ℚ
  leftBias : ℚ
  rightBias : ℚ
deriving Repr, DecidableEq

abbrev SpanMap := AListK String SubtreeDimensions

/-- `sumGroupWidth` (engine lines 1058–1063). -/
def sumGroupWidth (spans : List SubtreeDimensions) : ℚ :=
  if spans.length = 0 then 0
  else (spans.foldl (fun acc s => acc + s.width) 0)
    + ((spans.length - 1 : ℕ) : ℚ) * nodeCenterSpacing

/-- The one-node-width fallback span (cycle guard / missing node / depth). -/
def fallbackSpan : SubtreeDimensions := ⟨nodeWidth, nodeWidth / 2, nodeWidth / 2⟩

/-- `computeSubtreeSpan` (engine lines 950–1056), explicit memo map and
path-visited set (the JS mutable set with backtracking delete is exactly
path-scoped, hence passed immutably).  Check order follows the source: memo,
visited guard, missing node, suppressed loop member (zero span), loop-group
clamp, 50-deep defensive guard, ordinary left/right-bias combination.  The
`children.map` threads the memo map left-to-right, hence the stateful fold.
`fuel` is structural and dominates the recursion depth, which the visited
set bounds by the number of tree nodes. -/
def computeSubtreeSpan : Nat → String → PlacementTree → SpanMap → StrSet →
    StrSet → SubtreeDimensions × SpanMap
  | 0, nodeId, _, spanMap, _, _ => (fallbackSpan, aset spanMap nodeId fallbackSpan)
  | fuel + 1, nodeId, tree, spanMap, visited, loopGroupMemberIds =>
      match aget spanMap nodeId with
      | some s => (s, spanMap)
      | none =>
          if shas visited nodeId then (fallbackSpan, aset spanMap nodeId fallbackSpan)
          else
            match aget tree.nodes nodeId with
            | none => (fallbackSpan, aset spanMap nodeId fallbackSpan)
            | some node =>
                if shas loopGroupMemberIds nodeId then
                  let minimalSpan : SubtreeDimensions := ⟨0, 0, 0⟩
                  (minimalSpan, aset spanMap nodeId minimalSpan)
                else if node.info.equipment.isLoopGroup then
                  let visited := sadd visited nodeId
                  let r1 := node.children.s1.foldl
                    (fun (acc : List SubtreeDimensions × SpanMap) childId =>
                      let r := computeSubtreeSpan fuel childId tree acc.2 visited
                          loopGroupMemberIds
                      (acc.1 ++ [r.1], r.2))
                    ([], spanMap)
                  let r2 := node.children.s2.foldl
                    (fun (acc : List SubtreeDimensions × SpanMap) childId =>
                      let r := computeSubtreeSpan fuel childId tree acc.2 visited
                          loopGroupMemberIds
                      (acc.1 ++ [r.1], r.2))
                    ([], r1.2)
                  let s1Width := sumGroupWidth r1.1
                  let s2Width := sumGroupWidth r2.1
                  let constrainedWidth :=
                    max nodeWidth (min (nodeWidth * 3) (max s1Width s2Width))
                  let span : SubtreeDimensions :=
                    ⟨constrainedWidth, constrainedWidth / 2, constrainedWidth / 2⟩
                  (span, aset r2.2 nodeId span)
                else
                  let visited := sadd visited nodeId
                  if visited.length > 50 then
                    (fallbackSpan, aset spanMap nodeId fallbackSpan)
                  else
                    let r1 := node.children.s1.foldl
                      (fun (acc : List SubtreeDimensions × SpanMap) childId =>
                        let r := computeSubtreeSpan fuel childId tree acc.2 visited
                            loopGroupMemberIds
                        (acc.1 ++ [r.1], r.2))
                      ([], spanMap)
                    let r2 := node.children.s2.foldl
                      (fun (acc : List SubtreeDimensions × SpanMap) childId =>
                        let r := computeSubtreeSpan fuel childId tree acc.2 visited
                            loopGroupMemberIds
                        (acc.1 ++ [r.1], r.2))
                      ([], r1.2)
                    let s1Width := sumGroupWidth r1.1
                    let s2Width := sumGroupWidth r2.1
                    let leftBias := max (nodeWidth / 2) s1Width
                    let rightBias := max (nodeWidth / 2) s2Width
                    let span : SubtreeDimensions := ⟨leftBias + rightBias, leftBias, rightBias⟩
                    (span, aset r2.2 nodeId span)

/-- The `children.map(childId => computeSubtreeSpan(childId, …))` group
computation, as the stateful fold the recursion uses. -/
def computeSpanGroup (fuel : Nat) (ids : List String) (tree : PlacementTree)
    (spanMap : SpanMap) (visited : StrSet) (loopGroupMemberIds : StrSet) :
    List SubtreeDimensions × SpanMap :=
  ids.foldl
    (fun (acc : List SubtreeDimensions × SpanMap) childId =>
      let r := computeSubtreeSpan fuel childId tree acc.2 visited
          loopGroupMemberIds
      (acc.1 ++ [r.1], r.2))
    ([], spanMap)

/-- `computeBranchOffset` (engine lines 1065–1085). -/
def computeBranchOffset (nodeInfo : EquipmentLayoutInfo)
    (childLevels : List Nat) (metrics : LayoutMetrics) : ℚ :=
  match childLevels with
  | [] => localBranchOffset
  | l :: ls =>
      let maxChildLevel := ls.foldl max l
      let depthSteps : ℚ := max 1 ((maxChildLevel : ℚ) - (nodeInfo.level : ℚ))
      let offset := localBranchOffset + depthSteps * branchSpreadIncrement
      match metrics.firstSplitLevel with
      | none => offset
      | some fsl =>
          let relativeLevel : ℚ := (nodeInfo.level : ℚ) - (fsl : ℚ)
          if relativeLevel ≥ 0 then
            let baseHalfWidth := metrics.maxRowWidthPx * (2 / 5 : ℚ)
            let widened := baseHalfWidth + relativeLevel * branchSpreadIncrement
            max offset widened
          else offset

/-- Cursor walk of `computeGroupSlots` (each child slot sits at
`cursor + leftBias`; the cursor advances by the child's width plus the
inter-sibling gap). -/
def slotsWalk : List SubtreeDimensions → ℚ → List ℚ
  | [], _ => []
  | [s], cursor => [cursor + s.leftBias]
  | s :: s' :: rest, cursor =>
      (cursor + s.leftBias) ::
        slotsWalk (s' :: rest) (cursor + s.width + minimumNodeSpacing)

/-- `computeGroupSlots` (engine lines 1087–1137); at every call site `spans`
has exactly one entry per child id. -/
def computeGroupSlots (parentCenterX : ℚ) (childIds : List String)
    (spans : List SubtreeDimensions) (direction : Int)
    (hasOppositeBranch : Bool) (branchOffset : ℚ) : List ℚ :=
  if childIds.length = 0 then []
  else if childIds.length = 1 then
    if !hasOppositeBranch then [parentCenterX]
    else
      let span := spans.headD fallbackSpan
      let effectiveWidth := min span.width (nodeWidth + minimumNodeSpacing)
      [parentCenterX + (direction : ℚ) * (branchOffset + effectiveWidth / 2)]
  else
    let groupWidth := sumGroupWidth spans
    let start :=
      if !hasOppositeBranch then parentCenterX - groupWidth / 2
      else if direction = -1 then parentCenterX - branchOffset - groupWidth
      else parentCenterX + branchOffset
    slotsWalk spans start

/-- Resolved position. -/
structure Position where
  x : ℚ
  y : ℚ
deriving Repr, DecidableEq

abbrev PosMap := AListK String Position

/-- `assignPositionsRecursive` (engine lines 1139–1188): place the node on
its level baseline at the given x, then recurse into S1 slots (left) and S2
slots (right), threading positions and the visited set through the child
loops.  `fuel` is structural and dominates the visited-set-bounded recursion
depth. -/
def assignPositionsRecursive : Nat → String → ℚ → PlacementTree → SpanMap →
    PosMap → AListK Nat ℚ → StrSet → LayoutMetrics → PosMap × StrSet
  | 0, _, _, _, _, positions, _, visited, _ => (positions, visited)
  | fuel + 1, nodeId, centerXPos, tree, spanMap, positions, baselines, visited,
      metrics =>
      if shas visited nodeId then (positions, visited)
      else
        let visited := sadd visited nodeId
        match aget tree.nodes nodeId with
        | none => (positions, visited)
        | some node =>
            let baselineY := (aget baselines node.info.level).getD
                (centerY - (node.info.level : ℚ) * levelSpacing)
            let positions := aset positions nodeId ⟨centerXPos, baselineY⟩
            let hasS1 := node.children.s1.length > 0
            let hasS2 := node.children.s2.length > 0
            let s1Spans := node.children.s1.map
                (fun childId => (aget spanMap childId).getD fallbackSpan)
            let s2Spans := node.children.s2.map
                (fun childId => (aget spanMap childId).getD fallbackSpan)
            let s1Levels := node.children.s1.map
                (fun childId =>
                  match aget tree.nodes childId with
                  | some n => n.info.level
                  | none => node.info.level + 1)
            let s2Levels := node.children.s2.map
                (fun childId =>
                  match aget tree.nodes childId with
                  | some n => n.info.level
                  | none => node.info.level + 1)
            let s1BranchOffset := computeBranchOffset node.info s1Levels metrics
            let s2BranchOffset := computeBranchOffset node.info s2Levels metrics
            let s1Slots := computeGroupSlots centerXPos node.children.s1 s1Spans
                (-1) hasS2 s1BranchOffset
            let s2Slots := computeGroupSlots centerXPos node.children.s2 s2Spans
                1 hasS1 s2BranchOffset
            let r1 := (node.children.s1.zip s1Slots).foldl
              (fun (acc : PosMap × StrSet) cs =>
                assignPositionsRecursive fuel cs.1 cs.2 tree spanMap acc.1
                  baselines acc.2 metrics)
              (positions, visited)
            (node.children.s2.zip s2Slots).foldl
              (fun (acc : PosMap × StrSet) cs =>
                assignPositionsRecursive fuel cs.1 cs.2 tree spanMap acc.1
                  baselines acc.2 metrics)
              r1

/-- The up-to-six-hop ancestor trace of `normalizeLevelWidths` (engine lines
1260–1288): the first loop-group ancestor's branch, when one is found. -/
def traceLoopBranch (layoutInfoMap : AListK String EquipmentLayoutInfo) :
    Nat → String → Option String
  | 0, _ => none
  | n + 1, currentId =>
      match aget layoutInfoMap currentId with
      | none => none
      | some currentInfo =>
          if currentInfo.equipment.isLoopGroup then
            some (strOrD currentInfo.branch "S1")
          else
            match currentInfo.parentId with
            | some pid => if pid ≠ "" then traceLoopBranch layoutInfoMap n pid else none
            | none => none

/-- `getBranchPath` of `normalizeLevelWidths`: loop-group branch within six
hops, else the immediate parent's branch, else S1. -/
def getBranchPath (layoutInfoMap : AListK String EquipmentLayoutInfo)
    (parentId : String) : String :=
  match traceLoopBranch layoutInfoMap 6 parentId with
  | some b => b
  | none =>
      match aget layoutInfoMap parentId with
      | some p => strOrD p.branch "S1"
      | none => "S1"

/-- `normalizeLevelWidths` (engine lines 1191–1370): group each level's
non-lateral nodes by canonical parent, order parent groups by the ancestor
loop-group branch (then direct parent branch, then name), lay S1 before S2
within each group, and re-space the level evenly around the centre anchor,
keeping every y. -/
def normalizeLevelWidths (positions : PosMap)
    (layoutInfoMap : AListK String EquipmentLayoutInfo) : PosMap :=
  let levels : AListK Nat (List String) := layoutInfoMap.foldl
    (fun levels kv =>
      let info := kv.2
      if info.isLateral then levels
      else
        match aget positions info.equipment.id with
        | none => levels
        | some _ =>
            aset levels info.level
              ((aget levels info.level).getD [] ++ [info.equipment.id]))
    []
  levels.foldl
    (fun positions kv =>
      let ids := kv.2
      if ids.length = 0 then positions
      else
        let branchGroups : AListK String (List String × List String) := ids.foldl
          (fun bg i =>
            match aget layoutInfoMap i with
            | none => bg
            | some info =>
                let parentId := jsOrD info.parentId "unknown"
                let branch := strOrD info.branch "S1"
                let g := (aget bg parentId).getD ([], [])
                let g := if branch = "S1" then (g.1 ++ [i], g.2) else (g.1, g.2 ++ [i])
                aset bg parentId g)
          []
        let sortedBranches := sortByCmp
          (fun (a b : String × (List String × List String)) =>
            let parentA := a.1
            let parentB := b.1
            let branchPathA := getBranchPath layoutInfoMap parentA
            let branchPathB := getBranchPath layoutInfoMap parentB
            if branchPathA ≠ branchPathB then
              (if branchPathA = "S1" then -1 else 1)
            else
              let directA :=
                match aget layoutInfoMap parentA with
                | some p => strOrD p.branch "S1"
                | none => "S1"
              let directB :=
                match aget layoutInfoMap parentB with
                | some p => strOrD p.branch "S1"
                | none => "S1"
              if directA ≠ directB then (if directA = "S1" then -1 else 1)
              else
                let nameA :=
                  match aget layoutInfoMap parentA with
                  | some p => strOrD p.equipment.name parentA
                  | none => parentA
                let nameB :=
                  match aget layoutInfoMap parentB with
                  | some p => strOrD p.equipment.name parentB
                  | none => parentB
                cmpStr nameA nameB)
          branchGroups
        let nameOf := fun (i : String) =>
          match aget layoutInfoMap i with
          | some x => x.equipment.name
          | none => ""
        let orderedIds := sortedBranches.foldl
          (fun acc kv =>
            let g := kv.2
            let sortedS1 := sortByCmp (fun a b => cmpStr (nameOf a) (nameOf b)) g.1
            let sortedS2 := sortByCmp (fun a b => cmpStr (nameOf a) (nameOf b)) g.2
            acc ++ sortedS1 ++ sortedS2)
          []
        let spacing : ℚ := 380
        let totalWidth := ((orderedIds.length - 1 : ℕ) : ℚ) * spacing
        let startX := centerX - totalWidth / 2
        orderedIds.enum.foldl
          (fun positions p =>
            match aget positions p.2 with
            | none => positions
            | some current =>
                aset positions p.2 ⟨startX + (p.1 : ℚ) * spacing, current.y⟩)
          positions)
    positions

/-- `positionLateralEquipment` (engine lines 1372–1411): every lateral gets
its parent's y; a UPS lateral is pinned 280px to the parent's left; other
laterals keep their x (or take the fixed side offset when unplaced). -/
def positionLateralEquipment (tree : PlacementTree) (positions : PosMap) :
    PosMap :=
  tree.nodes.foldl
    (fun positions kv =>
      let node := kv.2
      if node.children.laterals.length = 0 then positions
      else
        match aget positions node.id with
        | none => positions
        | some parentPos =>
            node.children.laterals.foldl
              (fun positions lateralId =>
                match aget tree.nodes lateralId with
                | none => positions
                | some lateralNode =>
                    let info := lateralNode.info
                    let isUps := strIncludes (strUpper info.equipment.type) "UPS"
                    let y := parentPos.y
                    if isUps then aset positions lateralId ⟨parentPos.x - 280, y⟩
                    else
                      match aget positions lateralId with
                      | some current => aset positions lateralId ⟨current.x, y⟩
                      | none =>
                          let direction : ℚ := if info.branch = "S2" then 1 else -1
                          aset positions lateralId
                            ⟨parentPos.x + direction * lateralUpsOffset, y⟩)
              positions)
    positions

/-- Overlap amounts of one collision. -/
structure Overlap where
  horizontal : ℚ
  vertical : ℚ
deriving Repr, DecidableEq

/-- `CollisionInfo`. -/
structure CollisionInfo where
  node1 : String
  node2 : String
  overlap : Overlap

/-- `checkCollision` (engine lines 1885–1909): a collision needs horizontal
distance below `nodeWidth + minimumNodeSpacing` and either (nearly) equal y
or vertical distance below `nodeHeight + 50`. -/
def checkCollision (pos1 pos2 : Position) : Option Overlap :=
  let horizontalDistance := |pos1.x - pos2.x|
  let verticalDistance := |pos1.y - pos2.y|
  let minHorizontalDistance := nodeWidth + minimumNodeSpacing
  let minVerticalDistance := nodeHeight + 50
  let horizontalOverlap := minHorizontalDistance - horizontalDistance
  let verticalOverlap := minVerticalDistance - verticalDistance
  if horizontalOverlap > 0 then
    if |pos1.y - pos2.y| < 10 then some ⟨horizontalOverlap, 0⟩
    else if verticalOverlap > 0 then some ⟨horizontalOverlap, verticalOverlap⟩
    else none
  else none

/-- `findAllCollisions` (engine lines 1862–1883): all `i < j` pairs in map
order. -/
def findAllCollisions : PosMap → List CollisionInfo
  | [] => []
  | (id1, pos1) :: rest =>
      (rest.filterMap
        (fun p => (checkCollision pos1 p.2).map (fun o => ⟨id1, p.1, o⟩)))
        ++ findAllCollisions rest

/-- `decideMoveOrder` (engine lines 2135–2173): `true` means node1 moves.
UPS beats every other rule; then root (level 0), laterality, depth, branch,
id order. -/
def decideMoveOrder (id1 id2 : String)
    (layoutInfoMap : AListK String EquipmentLayoutInfo) : Bool :=
  match aget layoutInfoMap id1, aget layoutInfoMap id2 with
  | some info1, some info2 =>
      let node1IsUps := isUPSEquipment info1.equipment.type info1.equipment.name
      let node2IsUps := isUPSEquipment info2.equipment.type info2.equipment.name
      if node1IsUps && !node2IsUps then false
      else if !node1IsUps && node2IsUps then true
      else if info1.level = 0 && info2.level ≠ 0 then false
      else if info1.level ≠ 0 && info2.level = 0 then true
      else if info1.isLateral ≠ info2.isLateral then info1.isLateral
      else if info1.level ≠ info2.level then decide (info1.level > info2.level)
      else if info1.branch ≠ info2.branch then decide (info1.branch = "S2")
      else decide (cmpStr id1 id2 > 0)
  | _, _ => true

/-- `calculateSafePosition` (engine lines 2175–2204): the root never moves;
otherwise shift horizontally by overlap + padding, direction from
lateral-direction / branch / relative position. -/
def calculateSafePosition (nodeId : String) (nodePos collisionPos : Position)
    (overlap : Overlap)
    (layoutInfoMap : AListK String EquipmentLayoutInfo) : Position :=
  match aget layoutInfoMap nodeId with
  | some info =>
      if info.level = 0 then nodePos
      else
        let deltaX := overlap.horizontal + collisionPadding
        let moveRight : Bool :=
          if info.isLateral && info.lateralInfo.isSome then
            (info.lateralInfo.map (fun li => li.direction == "right")).getD false
          else if info.branch = "S2" then true
          else if info.branch = "S1" then false
          else decide (nodePos.x > collisionPos.x)
        ⟨nodePos.x + (if moveRight then deltaX else -deltaX), nodePos.y⟩
  | none =>
      let deltaX := overlap.horizontal + collisionPadding
      let moveRight := decide (nodePos.x > collisionPos.x)
      ⟨nodePos.x + (if moveRight then deltaX else -deltaX), nodePos.y⟩

/-- `resolveCollisions` (engine lines 1911–1964): biggest overlaps first;
same-level opposite-branch non-lateral pairs split symmetrically (S1 left,
S2 right, both move); otherwise `decideMoveOrder` picks the mover and
`calculateSafePosition` shifts it. -/
def resolveCollisions (collisions : List CollisionInfo) (positions : PosMap)
    (layoutInfoMap : AListK String EquipmentLayoutInfo) : PosMap :=
  let sorted := sortByCmp
    (fun a b =>
      let d := (b.overlap.horizontal + b.overlap.vertical)
        - (a.overlap.horizontal + a.overlap.vertical)
      if d < 0 then -1 else if d > 0 then 1 else 0)
    collisions
  sorted.foldl
    (fun positions collision =>
      match aget positions collision.node1, aget positions collision.node2 with
      | some pos1, some pos2 =>
          let info1 := aget layoutInfoMap collision.node1
          let info2 := aget layoutInfoMap collision.node2
          let canSplitResolution :=
            match info1, info2 with
            | some i1, some i2 =>
                i1.level = i2.level && i1.branch ≠ "" && i2.branch ≠ ""
                  && i1.branch ≠ i2.branch && !i1.isLateral && !i2.isLateral
            | _, _ => false
          if h : canSplitResolution = true then
            let i1branch := (info1.map (·.branch)).getD ""
            let shift := (collision.overlap.horizontal + collisionPadding) / 2
            let leftNode := if i1branch = "S1" then collision.node1 else collision.node2
            let rightNode := if leftNode = collision.node1 then collision.node2 else collision.node1
            let leftPos := if leftNode = collision.node1 then pos1 else pos2
            let rightPos := if rightNode = collision.node1 then pos1 else pos2
            let positions := aset positions leftNode ⟨leftPos.x - shift, leftPos.y⟩
            aset positions rightNode ⟨rightPos.x + shift, rightPos.y⟩
          else
            let moveFirst := decideMoveOrder collision.node1 collision.node2 layoutInfoMap
            let moverId := if moveFirst then collision.node1 else collision.node2
            let moverPos := if moveFirst then pos1 else pos2
            let otherPos := if moveFirst then pos2 else pos1
            aset positions moverId
              (calculateSafePosition moverId moverPos otherPos collision.overlap layoutInfoMap)
      | _, _ => positions)
    positions

/-- `enforceBranchAnchors` (engine lines 1966–2003): clamp every anchored
node inside a branch-skewed slack window around its anchor x. -/
def enforceBranchAnchors (positions : PosMap)
    (layoutInfoMap : AListK String EquipmentLayoutInfo)
    (anchorPositions : PosMap) : PosMap :=
  anchorPositions.foldl
    (fun positions kv =>
      let anchorPos := kv.2
      match aget positions kv.1 with
      | none => positions
      | some current =>
          match aget layoutInfoMap kv.1 with
          | none => positions
          | some info =>
              let isUps := isUPSEquipment info.equipment.type info.equipment.name
              let slacks : ℚ × ℚ :=
                if info.isLateral && isUps then
                  (minimumNodeSpacing / 3, min 12 (minimumNodeSpacing / 10))
                else if info.branch = "S1" then
                  (minimumNodeSpacing * (4/5), minimumNodeSpacing * (1/5))
                else if info.branch = "S2" then
                  (minimumNodeSpacing * (1/5), minimumNodeSpacing * (4/5))
                else (minimumNodeSpacing / 2, minimumNodeSpacing / 2)
              let minX := anchorPos.x - slacks.1
              let maxX := anchorPos.x + slacks.2
              let clampedX := min (max current.x minX) maxX
              if clampedX ≠ current.x then aset positions kv.1 ⟨clampedX, current.y⟩
              else positions)
    positions

/-- The bounded iteration of `detectAndResolveCollisions` (engine lines
1779–1806): up to 10 passes of find/resolve, branch anchors enforced after
every resolution and before every return. -/
def detectAndResolveCollisionsLoop : Nat → PosMap →
    AListK String EquipmentLayoutInfo → Option PosMap → PosMap
  | 0, resolved, lim, anchor =>
      (match anchor with
       | some a => enforceBranchAnchors resolved lim a
       | none => resolved)
  | fuel + 1, resolved, lim, anchor =>
      let collisions := findAllCollisions resolved
      if collisions.length = 0 then
        match anchor with
        | some a => enforceBranchAnchors resolved lim a
        | none => resolved
      else
        let resolved := resolveCollisions collisions resolved lim
        let resolved :=
          match anchor with
          | some a => enforceBranchAnchors resolved lim a
          | none => resolved
        detectAndResolveCollisionsLoop fuel resolved lim anchor

/-- `detectAndResolveCollisions` (engine lines 1779–1806). -/
def detectAndResolveCollisions (positions : PosMap)
    (layoutInfoMap : AListK String EquipmentLayoutInfo)
    (anchorPositions : Option PosMap) : PosMap :=
  detectAndResolveCollisionsLoop 10 positions layoutInfoMap anchorPositions

/-- `applyUpsMdsPairTightening` (engine lines 1808–1860): snap every UPS with
an MDS upstream relation to its partner's y, and (unless already left and
within tolerance) to `upsMdsPairOffset` left of it; anchors follow. -/
def applyUpsMdsPairTightening (positions : PosMap)
    (layoutInfoMap : AListK String EquipmentLayoutInfo)
    (connectionMap : ConnectionMap) (anchorPositions : PosMap) :
    PosMap × PosMap :=
  layoutInfoMap.foldl
    (fun (pa : PosMap × PosMap) kv =>
      let info := kv.2
      let equipmentType := strUpper info.equipment.type
      if !(strIncludes equipmentType "UPS") then pa
      else
        let upsId := info.equipment.id
        match aget pa.1 upsId with
        | none => pa
        | some upsPosition =>
            match aget connectionMap upsId with
            | none => pa
            | some relationEntry =>
                match relationEntry.upstream.find?
                    (fun parent => strIncludes (strUpper parent.type) "MDS") with
                | none => pa
                | some mdsParent =>
                    match aget pa.1 mdsParent.id with
                    | none => pa
                    | some mdsPosition =>
                        let desiredX := mdsPosition.x - upsMdsPairOffset
                        let desiredY := mdsPosition.y
                        let currentDistance := |mdsPosition.x - upsPosition.x|
                        let withinTolerance :=
                          |currentDistance - upsMdsPairOffset| ≤ 6
                            ∨ |currentDistance - nodeCenterSpacing| ≤ 6
                        if upsPosition.x < mdsPosition.x ∧ withinTolerance then
                          if |upsPosition.y - desiredY| > 1 then
                            (aset pa.1 upsId ⟨upsPosition.x, desiredY⟩,
                             aset pa.2 upsId ⟨upsPosition.x, desiredY⟩)
                          else pa
                        else
                          let snappedX :=
                            if |upsPosition.x - mdsPosition.x| > nodeCenterSpacing then
                              mdsPosition.x - nodeCenterSpacing
                            else desiredX
                          (aset pa.1 upsId ⟨snappedX, desiredY⟩,
                           aset pa.2 upsId ⟨snappedX, desiredY⟩))
    (positions, anchorPositions)

/-- The `while (attempts < 10)` relocation of `ensureNoOverlaps`: step right
in 50px increments to the first unused rounded coordinate. -/
def findFreeSlot : Nat → ℚ → ℚ → List (Int × Int) → Option ℚ
  | 0, _, _, _ => none
  | n + 1, newX, y, used =>
      let nx := newX + 50
      if used.contains (jsRound nx, jsRound y) then findFreeSlot n nx y used
      else some nx

/-- `ensureNoOverlaps` (engine lines 1748–1776): walking the snapshot of the
position array, a node whose rounded coordinate is already used is moved
right in 50px steps (at most 10 attempts); everything else is untouched. -/
def ensureNoOverlaps (positions : PosMap) : PosMap :=
  (positions.foldl
    (fun (acc : PosMap × List (Int × Int)) kv =>
      let pos := kv.2
      let coord := (jsRound pos.x, jsRound pos.y)
      if acc.2.contains coord then
        match findFreeSlot 10 pos.x pos.y acc.2 with
        | some nx =>
            (aset acc.1 kv.1 ⟨nx, pos.y⟩, acc.2 ++ [(jsRound nx, jsRound pos.y)])
        | none => acc
      else (acc.1, acc.2 ++ [coord]))
    (positions, [])).1

/-- One collected MDS–UPS pair of the final constraint pass. -/
structure MdsPair where
  mdsId : String
  mdsInfo : EquipmentLayoutInfo
  mdsPos : Position
  upsId : Option String
  upsInfo : Option EquipmentLayoutInfo
  upsPos : Option Position

/-- The MDS variant of the six-hop branch trace (engine lines 1674–1704). -/
def getBranchPathMds (layoutInfoMap : AListK String EquipmentLayoutInfo)
    (mdsInfo : EquipmentLayoutInfo) : String :=
  match mdsInfo.parentId with
  | none => strOrD mdsInfo.branch "S1"
  | some pid =>
      if pid = "" then strOrD mdsInfo.branch "S1"
      else
        match traceLoopBranch layoutInfoMap 6 pid with
        | some b => b
        | none => strOrD mdsInfo.branch "S1"

/-- STEP 13 of `calculateUpstreamPositions` (engine lines 1620–1741): collect
each level's MDS nodes with their paired lateral UPS, sort by branch
hierarchy then name, and re-space the pairs 500px apart around x = 400 with
each UPS 280px left of its MDS. -/
def applyMdsPairConstraints (finalPositions : PosMap)
    (layoutInfoMap : AListK String EquipmentLayoutInfo) : PosMap :=
  let mdsPairsByLevel : AListK Nat (List MdsPair) := finalPositions.foldl
    (fun acc kv =>
      match aget layoutInfoMap kv.1 with
      | some info =>
          if strIncludes info.equipment.type "MDS" then
            let lastUps := (layoutInfoMap.filter
              (fun uv => uv.2.isLateral && strIncludes uv.2.equipment.type "UPS"
                && uv.2.parentId = some kv.1)).getLast?
            let pair : MdsPair :=
              { mdsId := kv.1, mdsInfo := info, mdsPos := kv.2,
                upsId := lastUps.map (·.1),
                upsInfo := lastUps.map (·.2),
                upsPos := lastUps.bind (fun uv => aget finalPositions uv.1) }
            aset acc info.level ((aget acc info.level).getD [] ++ [pair])
          else acc
      | none => acc)
    []
  mdsPairsByLevel.foldl
    (fun positions kv =>
      let mdsPairs := kv.2
      if mdsPairs.length = 0 then positions
      else
        let sorted := sortByCmp
          (fun a b =>
            let branchA := getBranchPathMds layoutInfoMap a.mdsInfo
            let branchB := getBranchPathMds layoutInfoMap b.mdsInfo
            if branchA ≠ branchB then (if branchA = "S1" then -1 else 1)
            else cmpStr a.mdsInfo.equipment.name b.mdsInfo.equipment.name)
          mdsPairs
        let pairSpacing : ℚ := 500
        let totalWidth := ((sorted.length - 1 : ℕ) : ℚ) * pairSpacing
        let startX := (400 : ℚ) - totalWidth / 2
        sorted.enum.foldl
          (fun positions p =>
            let mdsX := startX + (p.1 : ℚ) * pairSpacing
            let positions :=
              match aget positions p.2.mdsId with
              | some oldMdsPos => aset positions p.2.mdsId ⟨mdsX, oldMdsPos.y⟩
              | none => positions
            match p.2.upsId, p.2.upsPos with
            | some upsId, some upsPos => aset positions upsId ⟨mdsX - 280, upsPos.y⟩
            | _, _ => positions)
          positions)
    finalPositions

/-- Output bundle of `calculateUpstreamPositions`. -/
structure LayoutResult where
  positions : PosMap
  layoutInfoMap : AListK String EquipmentLayoutInfo
  baselines : AListK Nat ℚ
  tree : PlacementTree

/-- `calculateUpstreamPositions` (engine lines 1413–1746), the full layout
pipeline in source order: placement tree; level baselines; subtree spans;
recursive position assignment from x = `centerX`; level normalization;
lateral placement; first collision pass (anchors snapshotted before it);
UPS–MDS pair tightening; second collision pass; final lateral placement;
STEP 11 (`enforceCategoryBaselines`) is NOT invoked — the call is commented
out in the source ("TEMPORARILY DISABLED"); final exact-overlap prevention;
MDS/UPS pair re-spacing.  Span fuel `nodes+60` and assignment fuel `nodes+2`
strictly dominate the visited-set-bounded recursion depths, so the fuelled
functions agree with the JS recursions. -/
def calculateUpstreamPositions (selectedEquipment : Equip)
    (layoutInfo : List EquipmentLayoutInfo) (connectionMap : ConnectionMap) :
    LayoutResult :=
  let layoutInfoMap : AListK String EquipmentLayoutInfo :=
    layoutInfo.foldl (fun m info => aset m info.equipment.id info) []
  let layoutInfoMap :=
    if ahas layoutInfoMap selectedEquipment.id then layoutInfoMap
    else
      aset layoutInfoMap selectedEquipment.id
        { equipment := selectedEquipment, branch := "S1",
          typeCategory := categorizeByType selectedEquipment.type,
          level := selectedEquipment.level, isLateral := false, parentId := none }
  let placementTree := buildPlacementTree selectedEquipment layoutInfoMap connectionMap
  let baselines := createLevelBaselines (layoutInfoMap.map (·.2)) selectedEquipment.level
  let spanLoopGroupMemberIds : StrSet := layoutInfo.foldl
    (fun s info =>
      if info.equipment.isLoopGroup then
        info.equipment.loopMembers.foldl (fun s m => sadd s m.id) s
      else s)
    []
  let spanResult := computeSubtreeSpan (placementTree.nodes.length + 60)
      placementTree.rootId placementTree [] [] spanLoopGroupMemberIds
  let spanMap := spanResult.2
  let layoutMetrics := computeLayoutMetrics placementTree
  let positions := (assignPositionsRecursive (placementTree.nodes.length + 2)
      placementTree.rootId centerX placementTree spanMap [] baselines []
      layoutMetrics).1
  let positions := normalizeLevelWidths positions layoutInfoMap
  let positions := positionLateralEquipment placementTree positions
  let anchorPositions := positions
  let resolvedPositions := detectAndResolveCollisions positions layoutInfoMap
      (some anchorPositions)
  let pa := applyUpsMdsPairTightening resolvedPositions layoutInfoMap
      connectionMap anchorPositions
  let finalPositions := detectAndResolveCollisions pa.1 layoutInfoMap (some pa.2)
  let finalPositions := positionLateralEquipment placementTree finalPositions
  let finalPositions := ensureNoOverlaps finalPositions
  let finalPositions := applyMdsPairConstraints finalPositions layoutInfoMap
  { positions := finalPositions, layoutInfoMap := layoutInfoMap,
    baselines := baselines, tree := placementTree }

/-- JS `s.split(':')[0]`. -/
def splitColonHead (s : String) : String :=
  String.mk (s.toList.takeWhile (fun c => c ≠ ':'))

/-- JS `s.trim()`. -/
def trimStr (s : String) : String :=
  String.mk (((s.toList.dropWhile Char.isWhitespace).reverse.dropWhile
    Char.isWhitespace).reverse)

/-- `extractTypePrefix` (engine lines 2030–2033). -/
def extractTypePrefix (type : String) : String :=
  if type = "" then "" else strUpper (trimStr (splitColonHead type))

/-- `getTypeAlignmentKey` (engine lines 2035–2097). -/
def getTypeAlignmentKey (info : EquipmentLayoutInfo)
    (layoutInfoMap : AListK String EquipmentLayoutInfo) : String :=
  let equipment := info.equipment
  if equipment.isLoopGroup then "RING_BUS"
  else
    let typeHead := extractTypePrefix equipment.type
    let category := categorizeByType equipment.type
    if category ≠ "END_EQUIPMENT" then
      if category = "DISTRIBUTION" then
        if strIncludes typeHead "UPS" && optTruthy info.parentId then
          match aget layoutInfoMap ((info.parentId).getD "") with
          | some parentInfo =>
              let parentHead := extractTypePrefix parentInfo.equipment.type
              if strIncludes parentHead "MDS" || strIncludes parentHead "SWGR"
                  || strIncludes parentHead "SWITCHGEAR" then
                "UPS_WITH_" ++ parentHead
              else "UPS"
          | none => "UPS"
        else if strIncludes typeHead "MDS" then "MDS"
        else if strIncludes typeHead "SWGR" then "SWGR"
        else "DISTRIBUTION"
      else if category = "GENERATOR" then "GEN"
      else if category = "TRANSFORMER" then "TX"
      else if category = "UTILITY" then "UTILITY"
      else category
    else
      if strIncludes typeHead "UPS" && optTruthy info.parentId then
        match aget layoutInfoMap ((info.parentId).getD "") with
        | some parentInfo =>
            let parentHead := extractTypePrefix parentInfo.equipment.type
            if strIncludes parentHead "MDS" || strIncludes parentHead "SWGR"
                || strIncludes parentHead "SWITCHGEAR" then
              "UPS_WITH_" ++ parentHead
            else "UPS"
        | none => "UPS"
      else if typeHead ≠ "" && ahas categoryVerticalOffsets typeHead then typeHead
      else category

/-- `determineBaselineTarget` (engine lines 2099–2133). -/
def determineBaselineTarget (info : EquipmentLayoutInfo) (positions : PosMap)
    (baselines : AListK Nat ℚ)
    (layoutInfoMap : AListK String EquipmentLayoutInfo) : ℚ :=
  let typeHead := extractTypePrefix info.equipment.type
  let key := getTypeAlignmentKey info layoutInfoMap
  match aget categoryVerticalOffsets key with
  | some off => centerY + off * categoryVerticalSpacing
  | none =>
      let fromUps : Option ℚ :=
        if strIncludes typeHead "UPS" && optTruthy info.parentId then
          match aget positions ((info.parentId).getD "") with
          | some parentPos => some parentPos.y
          | none =>
              match aget layoutInfoMap ((info.parentId).getD "") with
              | some parentInfo => aget baselines parentInfo.level
              | none => none
        else none
      match fromUps with
      | some y => y
      | none =>
          match aget baselines info.level with
          | some b => b
          | none =>
              match aget positions info.equipment.id with
              | some pos => pos.y
              | none => centerY

/-- The per-node body (`layoutInfoMap.forEach`) of
`enforceCategoryBaselines`: memoise the group's target on first contact,
then snap the node's y to it when off by more than the 0.5 tolerance. -/
def enforceCBStep (layoutInfoMap : AListK String EquipmentLayoutInfo)
    (baselines : AListK Nat ℚ) (acc : PosMap × AListK String ℚ)
    (kv : String × EquipmentLayoutInfo) : PosMap × AListK String ℚ :=
  let info := kv.2
  let eid := info.equipment.id
  match aget acc.1 eid with
  | none => acc
  | some pos =>
      let key := getTypeAlignmentKey info layoutInfoMap
      let categoryBaselines :=
        if ahas acc.2 key then acc.2
        else aset acc.2 key (determineBaselineTarget info acc.1 baselines layoutInfoMap)
      let targetY := (aget categoryBaselines key).getD 0
      if |pos.y - targetY| > (1/2 : ℚ) then
        (aset acc.1 eid ⟨pos.x, targetY⟩, categoryBaselines)
      else (acc.1, categoryBaselines)

/-- `enforceCategoryBaselines` (engine lines 2005–2028), folding the per-node
snap step over the layout map.  NOTE: the pipeline does not invoke this
function (its call at engine line 1573 is commented out, "TEMPORARILY
DISABLED"); it is embedded standalone. -/
def enforceCategoryBaselines (positions : PosMap)
    (layoutInfoMap : AListK String EquipmentLayoutInfo)
    (baselines : AListK Nat ℚ) : PosMap :=
  (layoutInfoMap.foldl (enforceCBStep layoutInfoMap baselines) (positions, [])).1

/-- Result bundle of a full run. -/
structure PipelineResult where
  connectionMap : ConnectionMap
  selectedEquipment : Equip
  upstream : List Equip
  downstream : List Equip
  layout : LayoutResult

/-- `generatePowerFlowTree` (engine lines 73–124) as a pure function of the
connection records and selected id (the source obtains the records from its
data adapter and rethrows any error).  The only throw site of the engine is
the NotFound check; the downstream node/edge JSON assembly
(`generateNodesAndEdges` styling output) is total data formatting and is
summarised by the layout bundle, which carries every datum the claims
concern. -/
def generatePowerFlowTree (connections : List EquipmentConnection)
    (selectedEquipmentId : String) : Except String PipelineResult :=
  let connectionMap := buildConnectionMap connections
  match findEquipmentInfo selectedEquipmentId connections with
  | none => .error ("Equipment with ID " ++ selectedEquipmentId ++ " not found")
  | some selectedEquipment =>
      let upstream := traverseUpstream 11 selectedEquipmentId connectionMap [] 1 [] none
      let downstream := traverseDownstream 11 selectedEquipmentId connectionMap [] 1 []
      let filteredUpstream := upstream.filter (fun eq => eq.id ≠ selectedEquipmentId)
      let filteredDownstream := downstream.filter (fun eq => eq.id ≠ selectedEquipmentId)
      let processedUpstream := ensureCompleteUpstreamCoverage selectedEquipment
          (processEquipmentForVisualization filteredUpstream connectionMap)
          connectionMap
      let processedDownstream := processEquipmentForVisualization
          filteredDownstream connectionMap
      let upstreamLayoutInfo := classifyEquipmentForLayout processedUpstream
          connectionMap
      let layout := calculateUpstreamPositions selectedEquipment
          upstreamLayoutInfo connectionMap
      .ok { connectionMap := connectionMap, selectedEquipment := selectedEquipment,
            upstream := processedUpstream, downstream := processedDownstream,
            layout := layout }

/-- Spec-words variant of `traverseUpstream` for the refinement comparison of
the cycle/bypass rule: identical to the embedding of the source except that a
bypass-classified relation recurses with a *fresh* (empty) visited set, as
§4.2 of the spec words it ("resets to a fresh visited set for that branch").
The source instead passes an unchanged copy of the current visited set. -/
def traverseUpstreamFresh : Nat → String → ConnectionMap → StrSet → Nat →
    List String → Option String → List Equip
  | 0, _, _, _, _, _, _ => []
  | fuel + 1, equipmentId, connectionMap, visited, level, path, branch =>
      if level > 10 then []
      else
        let isBypassPath := path.length > 0 &&
          (match aget connectionMap equipmentId with
           | some e => e.upstream.any (fun u => u.connectionType == "bypass")
           | none => false)
        if shas visited equipmentId && !isBypassPath then []
        else
          let currentPath := path ++ [equipmentId]
          match aget connectionMap equipmentId with
          | none => []
          | some connections =>
              connections.upstream.flatMap (fun u =>
                let currentBranch : String :=
                  match branch with
                  | some b => b
                  | none => if u.sourceNumber = "" then "S1" else u.sourceNumber
                let connectionType :=
                  if u.connectionType = "" then "normal" else u.connectionType
                let newVisited : StrSet :=
                  if connectionType == "bypass" then []
                  else sadd visited equipmentId
                let child : Equip :=
                  { id := u.id, name := u.name, type := u.type, level := level,
                    parentId := some equipmentId,
                    sourceNumber := some u.sourceNumber,
                    sources := [u.sourceNumber], parentIds := [equipmentId],
                    path := currentPath, branch := some currentBranch,
                    connectionType := some connectionType, loopMembers := [] }
                child ::
                  traverseUpstreamFresh fuel u.id connectionMap newVisited
                    (level + 1) currentPath (some currentBranch))

/-! Concrete example inputs used by counterexamples and witnesses. -/

/-- Record: MDS-1 feeds the selected PDU-1 on S1. -/
def recMdsToSel : EquipmentConnection :=
  { id := "c1", fromIds := ["mds1"], toIds := ["sel"], sourceNumber := "S1",
    fromName := "MDS-1", fromType := "MDS", toName := "PDU-1", toType := "PDU" }

/-- Record: UPS-1 feeds MDS-1 on S1. -/
def recUpsToMds : EquipmentConnection :=
  { id := "c2", fromIds := ["ups1"], toIds := ["mds1"], sourceNumber := "S1",
    fromName := "UPS-1", fromType := "UPS", toName := "MDS-1", toType := "MDS" }

/-- Record: TX-1 feeds MDS-1 on S1. -/
def recTxToMds : EquipmentConnection :=
  { id := "c3", fromIds := ["tx1"], toIds := ["mds1"], sourceNumber := "S1",
    fromName := "TX-1", fromType := "TX", toName := "MDS-1", toType := "MDS" }

/-- Record: MDS-1 feeds UPS-1 back (bidirectional UPS/MDS pairing). -/
def recMdsToUps : EquipmentConnection :=
  { id := "c4", fromIds := ["mds1"], toIds := ["ups1"], sourceNumber := "S1",
    fromName := "MDS-1", fromType := "MDS", toName := "UPS-1", toType := "UPS" }

/-- A selected PDU fed by an MDS that pairs bidirectionally with a UPS. -/
def exPairConnections : List EquipmentConnection :=
  [recMdsToSel, recUpsToMds, recMdsToUps]

/-- The same scenario with a transformer also feeding the MDS. -/
def exPairTxConnections : List EquipmentConnection :=
  [recMdsToSel, recUpsToMds, recTxToMds, recMdsToUps]

/-- Final layout positions of a run (empty on the error branch). -/
def resultPositions (r : Except String PipelineResult) : PosMap :=
  match r with
  | .ok res => res.layout.positions
  | .error _ => []

/-- Final layout bundle of a run. -/
def resultLayout (r : Except String PipelineResult) : Option LayoutResult :=
  match r with
  | .ok res => some res.layout
  | .error _ => none

/-- The separation disjunct claimed for every rendered pair: horizontal
separation ≥ `nodeWidth + minimumNodeSpacing` (380) or vertical separation
≥ `nodeHeight + 50` (120, the engine's vertical collision threshold). -/
def separatedPair (p q : Position) : Bool :=
  decide (|p.x - q.x| ≥ nodeWidth + minimumNodeSpacing)
    || decide (|p.y - q.y| ≥ nodeHeight + 50)

/-- All distinct rendered pairs separated (claim C1's property). -/
def allPairsSeparated : PosMap → Bool
  | [] => true
  | (_, p) :: rest =>
      rest.all (fun q => separatedPair p q.2) && allPairsSeparated rest

/-- Claim C2's property over a layout result: any two rendered
non-loop-representative nodes of one level share one y up to `tol`. -/
def levelsShareY (lr : LayoutResult) (tol : ℚ) : Bool :=
  lr.positions.all (fun kv1 =>
    lr.positions.all (fun kv2 =>
      match aget lr.layoutInfoMap kv1.1, aget lr.layoutInfoMap kv2.1 with
      | some i1, some i2 =>
          if i1.level = i2.level && !i1.equipment.isLoopGroup
              && !i2.equipment.isLoopGroup then
            decide (|kv1.2.y - kv2.2.y| ≤ tol)
          else true
      | _, _ => true))

/-- Record: SWB-A feeds the selected PDU-1 on S1. -/
def recSwbToSel : EquipmentConnection :=
  { id := "b1", fromIds := ["a1"], toIds := ["sel"], sourceNumber := "S1",
    fromName := "SWB-A", fromType := "SWB", toName := "PDU-1", toType := "PDU" }

/-- Record: UPS-B feeds SWB-A on S2 (classified bypass: UPS origin + S2). -/
def recUpsToSwb : EquipmentConnection :=
  { id := "b2", fromIds := ["b1"], toIds := ["a1"], sourceNumber := "S2",
    fromName := "UPS-B", fromType := "UPS", toName := "SWB-A", toType := "SWB" }

/-- Record: SWB-A feeds UPS-B on S1 (closing the bypass ring). -/
def recSwbToUps : EquipmentConnection :=
  { id := "b3", fromIds := ["a1"], toIds := ["b1"], sourceNumber := "S1",
    fromName := "SWB-A", fromType := "SWB", toName := "UPS-B", toType := "UPS" }

/-- A two-node ring `a1 ↔ b1` whose b1→a1 relation is bypass-classified. -/
def exBypassRing : List EquipmentConnection :=
  [recSwbToSel, recUpsToSwb, recSwbToUps]

/-- First colliding UPS (S1 branch). -/
def equipUpsA : Equip :=
  { id := "u1", name := "UPS-A", type := "UPS", level := 1, loopMembers := [] }

/-- Second colliding UPS (S2 branch). -/
def equipUpsB : Equip :=
  { id := "u2", name := "UPS-B", type := "UPS", level := 1, loopMembers := [] }

/-- Layout info of the first UPS. -/
def infoUpsA : EquipmentLayoutInfo :=
  { equipment := equipUpsA, branch := "S1", typeCategory := "DISTRIBUTION",
    level := 1, isLateral := false, parentId := none }

/-- Layout info of the second UPS. -/
def infoUpsB : EquipmentLayoutInfo :=
  { equipment := equipUpsB, branch := "S2", typeCategory := "DISTRIBUTION",
    level := 1, isLateral := false, parentId := none }

/-- Layout-info map with two colliding non-lateral UPS nodes of one level on
opposite branches. -/
def limTwoUps : AListK String EquipmentLayoutInfo :=
  [("u1", infoUpsA), ("u2", infoUpsB)]

/-- Positions placing the two UPS nodes 100px apart on one row. -/
def pmTwoUps : PosMap := [("u1", ⟨0, 0⟩), ("u2", ⟨100, 0⟩)]

/-- Ring-bus member CDS-01R-A at level 3 below parent `p`. -/
def eqCdsA : Equip :=
  { id := "a", name := "CDS-01R-A", type := "CDS", level := 3,
    parentId := some "p", sources := ["S1"], parentIds := ["p"], loopMembers := [] }

/-- Ring-bus member CDS-01R-B at level 3 below parent `p`. -/
def eqCdsB : Equip :=
  { id := "b", name := "CDS-01R-B", type := "CDS", level := 3,
    parentId := some "p", sources := ["S1"], parentIds := ["p"], loopMembers := [] }

/-- The members' consolidated parent, sitting at level 1 (a closer path to it
was found during consolidation, a situation the deduplication pass routinely
produces). -/
def eqParentP : Equip :=
  { id := "p", name := "P-1", type := "SWB", level := 1,
    parentId := none, sources := ["S1"], parentIds := [], loopMembers := [] }

/-- Equipment list for the loop-group level counterexample. -/
def eqsRingLevel : List Equip := [eqCdsA, eqCdsB, eqParentP]

/-- The `candidate.branch || candidate.sourceNumber || sources.find(S1|S2)`
chain used by the `closestToSelected` tie-break. -/
def memberBranchOf (e : Equip) : Option String :=
  jsOr (jsOr e.branch e.sourceNumber)
    (e.sources.find? (fun s => s == "S1" || s == "S2"))

/-- One upstream hop `a → b` exists in the map. -/
def upstreamLinkedB (cm : ConnectionMap) (a b : String) : Bool :=
  match aget cm a with
  | some e => e.upstream.any (fun u => u.id == b)
  | none => false

/-- Consecutive upstream links along a node list. -/
def upstreamPathB (cm : ConnectionMap) : List String → Bool
  | [] => true
  | [_] => true
  | a :: b :: rest => upstreamLinkedB cm a b && upstreamPathB cm (b :: rest)

/-- One downstream hop `a → b` exists in the map. -/
def downstreamLinkedB (cm : ConnectionMap) (a b : String) : Bool :=
  match aget cm a with
  | some e => e.downstream.any (fun u => u.id == b)
  | none => false

/-- Consecutive downstream links along a node list. -/
def downstreamPathB (cm : ConnectionMap) : List String → Bool
  | [] => true
  | [_] => true
  | a :: b :: rest => downstreamLinkedB cm a b && downstreamPathB cm (b :: rest)

/-- Invariant of span memo maps: every stored entry either belongs to a
suppressed loop member or reserves at least one node-width. -/
def spanMapOK (memberIds : StrSet) (m : SpanMap) : Prop :=
  ∀ i s, aget m i = some s → shas memberIds i = true ∨ nodeWidth ≤ s.width

/-- Layout info of an ordinary witness node. -/
def infoOfEquip (e : Equip) (pid : Option String) : EquipmentLayoutInfo :=
  { equipment := e, branch := "S1", typeCategory := categorizeByType e.type,
    level := e.level, isLateral := false, parentId := pid }

/-- Witness root equipment. -/
def equipRootW : Equip :=
  { id := "root", name := "R", type := "PDU", level := 0, loopMembers := [] }

/-- Witness leaf equipment. -/
def equipLeafW : Equip :=
  { id := "leaf1", name := "L", type := "TX", level := 1, loopMembers := [] }

/-- Witness loop-group equipment. -/
def equipLoopW : Equip :=
  { id := "lg", name := "RING", type := "RING BUS", level := 1,
    isLoopGroup := true, loopMembers := [] }

/-- Witness suppressed-member equipment. -/
def equipMemberW : Equip :=
  { id := "m1", name := "CDS-01R-A", type := "CDS", level := 2, loopMembers := [] }

/-- Placement tree for the span-calculator witness: an ordinary root with one
leaf child, plus a loop-group node over a suppressed member. -/
def treeSpanWitness : PlacementTree :=
  { root := "root", rootId := "root",
    nodes :=
      [("root", { id := "root", parentId := none,
                  info := infoOfEquip equipRootW none,
                  children := ⟨["leaf1"], [], []⟩ }),
       ("leaf1", { id := "leaf1", parentId := some "root",
                   info := infoOfEquip equipLeafW (some "root"),
                   children := ⟨[], [], []⟩ }),
       ("lg", { id := "lg", parentId := some "root",
                info := infoOfEquip equipLoopW (some "root"),
                children := ⟨["m1"], [], []⟩ }),
       ("m1", { id := "m1", parentId := some "lg",
                info := infoOfEquip equipMemberW (some "lg"),
                children := ⟨[], [], []⟩ })] }

/-! Theorems settling the claims. -/

/-- `Map.set` then `get`. -/
theorem aget_aset {κ α : Type} [DecidableEq κ] (m : AListK κ α) (k k' : κ)
    (v : α) : aget (aset m k v) k' = if k = k' then some v else aget m k' := by
  induction m with
  | nil => by_cases h : k = k' <;> simp [aset, aget, h]
  | cons hd tl ih =>
      obtain ⟨k0, v0⟩ := hd
      simp only [aset]
      by_cases h0 : k0 = k
      · subst h0
        by_cases h : k0 = k' <;> simp [aget, h]
      · by_cases h : k0 = k'
        · subst h
          have hkk : ¬k = k0 := fun hh => h0 hh.symm
          simp [aget, h0, hkk]
        · simp [aget, h0, h, ih]

/-- C8: the derived classification follows the claimed priority order:
power-storage (UPS) origin with secondary (S2) label → bypass; UPS origin
feeding a critical-panel (CUPP) type → bypass; otherwise secondary label →
redundant; otherwise normal. -/
theorem claimC8_classification (c : EquipmentConnection) :
    (strIncludes c.fromType "UPS" = true → c.sourceNumber = "S2" →
      classifyConnectionType c = "bypass")
    ∧ (strIncludes c.fromType "UPS" = true → strIncludes c.toType "CUPP" = true →
      classifyConnectionType c = "bypass")
    ∧ (strIncludes c.fromType "UPS" = false → c.sourceNumber = "S2" →
      classifyConnectionType c = "redundant")
    ∧ (strIncludes c.fromType "UPS" = false → c.sourceNumber ≠ "S2" →
      classifyConnectionType c = "normal")
    ∧ (strIncludes c.fromType "UPS" = true → c.sourceNumber ≠ "S2" →
      strIncludes c.toType "CUPP" = false → classifyConnectionType c = "normal") := by
  refine ⟨?_, ?_, ?_, ?_, ?_⟩ <;> intro h1 h2 <;>
    simp [classifyConnectionType, h1, h2]

/-- C8 witness: a UPS-origin S2 record classifies as bypass, a plain S2
record as redundant. -/
theorem claimC8_witness :
    classifyConnectionType recUpsToSwb = "bypass"
    ∧ classifyConnectionType
        { recTxToMds with sourceNumber := "S2" } = "redundant" :=
  ⟨(claimC8_classification recUpsToSwb).1 (by decide) (by decide),
   (claimC8_classification { recTxToMds with sourceNumber := "S2" }).2.2.1
     (by decide) (by decide)⟩

/-- C3: the layout engine of the embedding is a pure function — two runs on
one connection list / selected id (and one layout input triple) are
definitionally the same computation, so positions are identical; the source
has no randomness, clock reads, or iteration-order nondeterminism (JS maps
iterate in insertion order and `Array.sort` is stable, both modelled
exactly). -/
theorem claimC3_determinism (conns : List EquipmentConnection) (sid : String)
    (sel : Equip) (li : List EquipmentLayoutInfo) (cm : ConnectionMap) :
    generatePowerFlowTree conns sid = generatePowerFlowTree conns sid
    ∧ calculateUpstreamPositions sel li cm = calculateUpstreamPositions sel li cm
    ∧ (resultPositions (generatePowerFlowTree conns sid)
        = resultPositions (generatePowerFlowTree conns sid)) :=
  ⟨rfl, rfl, rfl⟩

/-- C1 counterexample: the full pipeline on the UPS/MDS pairing scenario
(`exPairConnections`, selected id `sel`) ends with the UPS at (120, 150) and
its MDS at (400, 150): horizontal separation 280 < 380 = nodeWidth + gap and
vertical separation 0 < 120, violating the claimed pairwise separation
disjunction. -/
theorem claimC1_counterexample :
    allPairsSeparated
      (resultPositions (generatePowerFlowTree exPairConnections "sel")) = false
    ∧ resultPositions (generatePowerFlowTree exPairConnections "sel")
      = [("sel", ⟨400, 300⟩), ("mds1", ⟨400, 150⟩), ("ups1", ⟨120, 150⟩)] := by
  constructor <;> decide

/-- C2 counterexample: with a transformer added (`exPairTxConnections`), the
final layout has TX-1 at level 2 with y = 0 while the lateral UPS-1, also at
level 2, sits at its partner's y = 150; two rendered non-loop-representative
nodes of one level do not share one y (tolerance 1/2, the validator's
baseline tolerance).  `enforceCategoryBaselines` cannot repair this because
the pipeline never invokes it (its call is commented out in the source). -/
theorem claimC2_counterexample :
    (resultLayout (generatePowerFlowTree exPairTxConnections "sel")).elim false
      (fun lr => levelsShareY lr (1/2)) = false
    ∧ resultPositions (generatePowerFlowTree exPairTxConnections "sel")
      = [("sel", ⟨400, 300⟩), ("mds1", ⟨400, 150⟩), ("tx1", ⟨400, 0⟩),
         ("ups1", ⟨120, 150⟩)] := by
  constructor <;> decide

/-- C7 counterexample: two colliding non-lateral UPS nodes of one level on
opposite branches go through the symmetric split path, which moves BOTH of
them — the S1 UPS `u1` is displaced from (0,0) to (−146,0) — contradicting
"a power-storage (UPS) node is never displaced". -/
theorem claimC7_counterexample :
    isUPSEquipment infoUpsA.equipment.type infoUpsA.equipment.name = true
    ∧ aget pmTwoUps "u1" = some ⟨0, 0⟩
    ∧ detectAndResolveCollisions pmTwoUps limTwoUps none
      = [("u1", ⟨-146, 0⟩), ("u2", ⟨246, 0⟩)] := by
  refine ⟨by decide, by decide, by decide⟩

/-- C4 counterexample: on the bypass ring `exBypassRing` the source traversal
is cut off after four entries (the bypass branch inherits the current visited
set, so the ancestors block re-entry at depth 5), whereas the spec's
fresh-visited-set semantics (`traverseUpstreamFresh`) expands the ring to the
full depth ceiling, producing ten entries. -/
theorem claimC4_counterexample :
    ((traverseUpstream 11 "sel" (buildConnectionMap exBypassRing) [] 1 [] none).map
        (fun e => (e.id, e.level)))
      = [("a1", 1), ("b1", 2), ("a1", 3), ("b1", 4)]
    ∧ (traverseUpstreamFresh 11 "sel" (buildConnectionMap exBypassRing) [] 1 [] none).length
      = 10 := by
  constructor <;> decide

/-- C5 counterexample: on `eqsRingLevel` (two ring members at level 3 whose
consolidated parent sits at level 1) the loop consolidation produces one
representative whose final level is 2 — the post-rewiring level fix resets it
to parent.level + 1 — although the minimum level among the group's members
is 3. -/
theorem claimC5_counterexample :
    ((processLoopGroups eqsRingLevel []).filter (·.isLoopGroup)).map
        (fun e => (e.level, e.loopMembers.map (·.level)))
      = [(2, [3, 3])] := by
  decide


/-- Entries of an association list with duplicate-free keys are what `aget`
returns. -/
theorem aget_mem_of_nodup {α : Type} (m : AListK String α)
    (h : (m.map Prod.fst).Nodup) : ∀ kv ∈ m, aget m kv.1 = some kv.2 := by
  induction m with
  | nil => intro kv hkv; cases hkv
  | cons hd tl ih =>
      intro kv hkv
      simp only [List.map_cons, List.nodup_cons] at h
      cases hkv with
      | head => simp [aget]
      | tail _ hmem =>
          have hne : hd.1 ≠ kv.1 := by
            intro he
            exact h.1 (he ▸ List.mem_map_of_mem Prod.fst hmem)
          simp only [aget, hne, if_neg hne]
          exact ih h.2 kv hmem

/-- A successful relocation of the final overlap-prevention step shifts x
right by between 1 and `n` 50px increments. -/
theorem findFreeSlot_shift (n : Nat) :
    ∀ (x y : ℚ) (used : List (Int × Int)) (r : ℚ),
      findFreeSlot n x y used = some r →
      ∃ j : Nat, 1 ≤ j ∧ j ≤ n ∧ r = x + 50 * j := by
  induction n with
  | zero => intro x y used r h; simp [findFreeSlot] at h
  | succ n ih =>
      intro x y used r h
      simp only [findFreeSlot] at h
      split at h
      · obtain ⟨j, hj1, hjn, hr⟩ := ih (x + 50) y used r h
        refine ⟨j + 1, by omega, by omega, ?_⟩
        rw [hr]
        push_cast
        ring
      · cases h
        exact ⟨1, le_refl 1, by omega, by push_cast; ring⟩

/-- C1 amended: the final overlap-prevention step (`ensureNoOverlaps`, the
last geometric pass together with the MDS/UPS re-spacing) guarantees only
this much: every node keeps its y, and its x is either unchanged or moved
right by 1–10 steps of 50px (a relocation attempted only for nodes whose
rounded coordinate was already taken, and abandoned after 10 occupied
slots).  No lower bound of nodeWidth+gap / nodeHeight+gap separation is
established — `claimC1_counterexample` exhibits a final layout violating
it. -/
theorem claimC1_ensureNoOverlaps (positions : PosMap)
    (hkeys : (positions.map Prod.fst).Nodup) :
    ∀ i p, aget positions i = some p →
      ∃ p', aget (ensureNoOverlaps positions) i = some p' ∧ p'.y = p.y ∧
        ∃ k : Nat, k ≤ 10 ∧ p'.x = p.x + 50 * k := by
  have hmem := aget_mem_of_nodup positions hkeys
  unfold ensureNoOverlaps
  have main : ∀ (l : List (String × Position)) (acc : PosMap × List (Int × Int)),
      (∀ kv ∈ l, aget positions kv.1 = some kv.2) →
      (∀ i p, aget positions i = some p →
        ∃ p', aget acc.1 i = some p' ∧ p'.y = p.y ∧
          ∃ k : Nat, k ≤ 10 ∧ p'.x = p.x + 50 * k) →
      ∀ i p, aget positions i = some p →
        ∃ p', aget (l.foldl
            (fun (acc : PosMap × List (Int × Int)) kv =>
              let pos := kv.2
              let coord := (jsRound pos.x, jsRound pos.y)
              if acc.2.contains coord then
                match findFreeSlot 10 pos.x pos.y acc.2 with
                | some nx =>
                    (aset acc.1 kv.1 ⟨nx, pos.y⟩,
                     acc.2 ++ [(jsRound nx, jsRound pos.y)])
                | none => acc
              else (acc.1, acc.2 ++ [coord])) acc).1 i = some p' ∧
          p'.y = p.y ∧ ∃ k : Nat, k ≤ 10 ∧ p'.x = p.x + 50 * k := by
    intro l
    induction l with
    | nil => intro acc _ hacc; exact hacc
    | cons kv rest ih =>
        intro acc hl hacc
        simp only [List.foldl_cons]
        apply ih
        · intro kv' hkv'; exact hl kv' (List.mem_cons_of_mem _ hkv')
        · intro i p hip
          by_cases hc : acc.2.contains (jsRound kv.2.x, jsRound kv.2.y)
          · simp only [hc, if_true]
            cases hfs : findFreeSlot 10 kv.2.x kv.2.y acc.2 with
            | none => exact hacc i p hip
            | some nx =>
                simp only
                by_cases hi : kv.1 = i
                · subst hi
                  have hp : p = kv.2 := by
                    have hkv := hl kv (List.mem_cons_self kv rest)
                    rw [hkv] at hip
                    exact (Option.some_inj.mp hip).symm
                  obtain ⟨j, hj1, hj10, hnx⟩ := findFreeSlot_shift 10 _ _ _ _ hfs
                  refine ⟨⟨nx, kv.2.y⟩, ?_, by rw [hp], j, hj10, by rw [hp, hnx]⟩
                  rw [aget_aset]
                  simp
                · obtain ⟨p', hget, hy, hk⟩ := hacc i p hip
                  refine ⟨p', ?_, hy, hk⟩
                  rw [aget_aset]
                  simp [hi, hget]
          · simp only [hc, if_false]
            exact hacc i p hip
  intro i p hip
  exact main positions (positions, []) hmem
    (fun i p hip => ⟨p, hip, rfl, 0, by omega, by push_cast; ring⟩) i p hip

/-- C1 witness: on the two-UPS position map the theorem yields the second
UPS unchanged in y and shifted by at most 10 half-steps in x. -/
theorem claimC1_witness :
    ∃ p', aget (ensureNoOverlaps pmTwoUps) "u2" = some p' ∧
      p'.y = (Position.mk 100 0).y ∧
      ∃ k : Nat, k ≤ 10 ∧ p'.x = (Position.mk 100 0).x + 50 * k :=
  claimC1_ensureNoOverlaps pmTwoUps (by decide) "u2" ⟨100, 0⟩ (by decide)

/-- C7 amended: the mover-selection rules hold only for the non-split path:
UPS vs non-UPS always moves the non-UPS node; with equal UPS status the
deciding order is root (level 0) protection, laterality, depth, then S2
before S1; and `calculateSafePosition` never displaces a level-0 node.  When
the pair shares a level with opposite branches (both non-lateral) the
symmetric split path moves both nodes regardless of UPS status
(`claimC7_counterexample`), and two UPS nodes can displace one another. -/
theorem claimC7_moveOrder (lim : AListK String EquipmentLayoutInfo)
    (id1 id2 : String) (info1 info2 : EquipmentLayoutInfo)
    (h1 : aget lim id1 = some info1) (h2 : aget lim id2 = some info2) :
    (isUPSEquipment info1.equipment.type info1.equipment.name = true →
     isUPSEquipment info2.equipment.type info2.equipment.name = false →
     decideMoveOrder id1 id2 lim = false)
    ∧ (isUPSEquipment info1.equipment.type info1.equipment.name = false →
       isUPSEquipment info2.equipment.type info2.equipment.name = true →
       decideMoveOrder id1 id2 lim = true)
    ∧ (isUPSEquipment info1.equipment.type info1.equipment.name
        = isUPSEquipment info2.equipment.type info2.equipment.name →
       info1.level = 0 → info2.level ≠ 0 → decideMoveOrder id1 id2 lim = false)
    ∧ (isUPSEquipment info1.equipment.type info1.equipment.name
        = isUPSEquipment info2.equipment.type info2.equipment.name →
       info1.level ≠ 0 → info2.level = 0 → decideMoveOrder id1 id2 lim = true)
    ∧ (isUPSEquipment info1.equipment.type info1.equipment.name
        = isUPSEquipment info2.equipment.type info2.equipment.name →
       (info1.level = 0 ↔ info2.level = 0) →
       info1.isLateral ≠ info2.isLateral →
       decideMoveOrder id1 id2 lim = info1.isLateral)
    ∧ (isUPSEquipment info1.equipment.type info1.equipment.name
        = isUPSEquipment info2.equipment.type info2.equipment.name →
       (info1.level = 0 ↔ info2.level = 0) →
       info1.isLateral = info2.isLateral →
       info1.level ≠ info2.level →
       decideMoveOrder id1 id2 lim = decide (info1.level > info2.level))
    ∧ (isUPSEquipment info1.equipment.type info1.equipment.name
        = isUPSEquipment info2.equipment.type info2.equipment.name →
       (info1.level = 0 ↔ info2.level = 0) →
       info1.isLateral = info2.isLateral →
       info1.level = info2.level →
       info1.branch ≠ info2.branch →
       decideMoveOrder id1 id2 lim = decide (info1.branch = "S2"))
    ∧ (∀ (lim' : AListK String EquipmentLayoutInfo) (nodeId : String)
         (pos cpos : Position) (ov : Overlap) (info : EquipmentLayoutInfo),
       aget lim' nodeId = some info → info.level = 0 →
       calculateSafePosition nodeId pos cpos ov lim' = pos) := by
  refine ⟨?_, ?_, ?_, ?_, ?_, ?_, ?_, ?_⟩
  · intro hu1 hu2
    simp [decideMoveOrder, h1, h2, hu1, hu2]
  · intro hu1 hu2
    simp [decideMoveOrder, h1, h2, hu1, hu2]
  · intro hu hl1 hl2
    cases hv : isUPSEquipment info1.equipment.type info1.equipment.name <;>
      simp [decideMoveOrder, h1, h2, hv, hu ▸ hv, hl1, hl2] <;> omega
  · intro hu hl1 hl2
    cases hv : isUPSEquipment info1.equipment.type info1.equipment.name <;>
      simp [decideMoveOrder, h1, h2, hv, hu ▸ hv, hl1, hl2] <;> omega
  · intro hu hiff hlat
    cases hv : isUPSEquipment info1.equipment.type info1.equipment.name <;>
      cases hr1 : decide (info1.level = 0) <;> cases hr2 : decide (info2.level = 0) <;>
      simp at hr1 hr2 <;>
      first
        | (exfalso; omega)
        | (first
            | exact absurd (hiff.mpr hr2) hr1
            | exact absurd (hiff.mp hr1) hr2
            | simp [decideMoveOrder, h1, h2, hv, hu ▸ hv, hr1, hr2, hlat])
  · intro hu hiff hlat hlev
    cases hv : isUPSEquipment info1.equipment.type info1.equipment.name <;>
      cases hr1 : decide (info1.level = 0) <;> cases hr2 : decide (info2.level = 0) <;>
      simp at hr1 hr2 <;>
      first
        | (exfalso; exact hlev (by omega))
        | exact absurd (hiff.mpr hr2) hr1
        | exact absurd (hiff.mp hr1) hr2
        | simp [decideMoveOrder, h1, h2, hv, hu ▸ hv, hr1, hr2, hlat, hlev]
  · intro hu hiff hlat hlev hbr
    cases hv : isUPSEquipment info1.equipment.type info1.equipment.name <;>
      cases hr1 : decide (info1.level = 0) <;> cases hr2 : decide (info2.level = 0) <;>
      simp at hr1 hr2 <;>
      first
        | (exfalso; omega)
        | exact absurd (hiff.mpr hr2) hr1
        | exact absurd (hiff.mp hr1) hr2
        | simp [decideMoveOrder, h1, h2, hv, hu ▸ hv, hr1, hr2, hlat, hlev, hbr]
  · intro lim' nodeId pos cpos ov info hinfo hlev
    simp [calculateSafePosition, hinfo, hlev]

/-- C7 witness: for the two colliding UPS nodes (equal UPS status, equal
level, opposite branches) the mover decision reduces to the branch rule,
so the S1-branch node `u1` does not move first; and a level-0 node is left
in place by `calculateSafePosition`. -/
theorem claimC7_witness :
    decideMoveOrder "u1" "u2" limTwoUps = decide (infoUpsA.branch = "S2")
    ∧ calculateSafePosition "root" ⟨1, 2⟩ ⟨3, 4⟩ ⟨5, 0⟩
        [("root", infoOfEquip equipRootW none)] = ⟨1, 2⟩ :=
  ⟨(claimC7_moveOrder limTwoUps "u1" "u2" infoUpsA infoUpsB rfl
      rfl).2.2.2.2.2.2.1 (by decide) (by decide) (by decide)
      (by decide) (by decide),
   (claimC7_moveOrder limTwoUps "u1" "u2" infoUpsA infoUpsB rfl
      rfl).2.2.2.2.2.2.2 [("root", infoOfEquip equipRootW none)]
      "root" ⟨1, 2⟩ ⟨3, 4⟩ ⟨5, 0⟩ (infoOfEquip equipRootW none) rfl rfl⟩

/-- C4 amended: the cycle guard and its bypass exception work as follows —
a visited node none of whose upstream relations is bypass-classified is
never re-expanded (its traversal contributes nothing), even inside a bypass
branch, because a bypass relation passes the *current* visited set on
unchanged (merely omitting the current id) rather than a fresh one; the
current node itself can therefore be re-entered (the ring scenario re-lists
`a1` at depth 3) but the expansion stops once the inherited visited set
blocks a non-bypass node (depth 5 here, against the spec's full expansion
to the depth ceiling). -/
theorem claimC4_visitedSemantics :
    (∀ (fuel : Nat) (eid : String) (cm : ConnectionMap) (v : StrSet)
       (level : Nat) (path : List String) (b : Option String),
       shas v eid = true →
       (∀ e, aget cm eid = some e →
         e.upstream.any (fun u => u.connectionType == "bypass") = false) →
       traverseUpstream fuel eid cm v level path b = [])
    ∧ ("a1", 3) ∈ ((traverseUpstream 11 "sel" (buildConnectionMap exBypassRing)
        [] 1 [] none).map (fun e => (e.id, e.level)))
    ∧ ("b1", 5) ∉ ((traverseUpstream 11 "sel" (buildConnectionMap exBypassRing)
        [] 1 [] none).map (fun e => (e.id, e.level))) := by
  refine ⟨?_, by decide, by decide⟩
  intro fuel eid cm v level path b hv hnb
  cases fuel with
  | zero => rfl
  | succ fuel =>
      simp only [traverseUpstream]
      by_cases hl : level > 10
      · simp [hl]
      · simp only [hl, if_false]
        cases hcm : aget cm eid with
        | none => simp [hv, hcm]
        | some e => simp [hv, hcm, hnb e hcm]

/-- C4 witness: a visited node with no bypass upstream relation (empty map)
contributes nothing. -/
theorem claimC4_witness :
    traverseUpstream 5 "x" [] ["x"] 1 [] none = [] :=
  claimC4_visitedSemantics.1 5 "x" [] ["x"] 1 [] none (by decide)
    (fun e h => by simp [aget] at h)


/-- `findEquipmentInfo` misses exactly when the id is in no record's origin
or destination set. -/
theorem findEquipmentInfo_none_iff (sid : String)
    (conns : List EquipmentConnection) :
    findEquipmentInfo sid conns = none ↔
      ∀ c ∈ conns, sid ∉ c.fromIds ∧ sid ∉ c.toIds := by
  induction conns with
  | nil => simp [findEquipmentInfo]
  | cons c rest ih =>
      by_cases h1 : sid ∈ c.fromIds <;> by_cases h2 : sid ∈ c.toIds <;>
        simp [findEquipmentInfo, h1, h2, ih]

/-- C10: the layout computation errors exactly when the selected id occurs
in no record's origin/destination sets (the NotFound throw is the engine's
only failure site), while an id without a connection-map entry encountered
during traversal contributes an empty list rather than failing. -/
theorem claimC10_notFound (conns : List EquipmentConnection) (sid : String) :
    ((∃ msg, generatePowerFlowTree conns sid = .error msg) ↔
      ∀ c ∈ conns, sid ∉ c.fromIds ∧ sid ∉ c.toIds)
    ∧ (∀ (fuel : Nat) (cm : ConnectionMap) (eid : String) (v : StrSet)
         (level : Nat) (path : List String) (b : Option String),
       aget cm eid = none →
       traverseUpstream fuel eid cm v level path b = []
       ∧ traverseDownstream fuel eid cm v level path = []) := by
  constructor
  · rw [← findEquipmentInfo_none_iff]
    constructor
    · rintro ⟨msg, hmsg⟩
      cases hfi : findEquipmentInfo sid conns with
      | none => rfl
      | some sel => simp [generatePowerFlowTree, hfi] at hmsg
    · intro h
      exact ⟨"Equipment with ID " ++ sid ++ " not found",
        by simp [generatePowerFlowTree, h]⟩
  · intro fuel cm eid v level path b hnone
    constructor
    · cases fuel with
      | zero => rfl
      | succ f =>
          simp only [traverseUpstream, hnone]
          by_cases hl : level > 10
          · simp [hl]
          · by_cases hv : shas v eid <;> simp [hl, hv]
    · cases fuel with
      | zero => rfl
      | succ f =>
          simp only [traverseDownstream, hnone]
          by_cases hl : level > 10
          · simp [hl]
          · by_cases hv : shas v eid <;> simp [hl, hv]

/-- C10 witness: an absent id aborts the pairing scenario; an unmapped id's
traversal is empty. -/
theorem claimC10_witness :
    (∃ msg, generatePowerFlowTree exPairConnections "zzz" = .error msg)
    ∧ traverseUpstream 3 "ghost" [] [] 1 [] none = [] :=
  ⟨(claimC10_notFound exPairConnections "zzz").1.mpr (by decide),
   ((claimC10_notFound exPairConnections "zzz").2 3 [] "ghost" [] 1 [] none rfl).1⟩





/-- Closed form of one enforcement step: skip nodes without a position;
otherwise memoise a target for the alignment key and snap the node onto it
when it is off by more than the 0.5 tolerance. -/
theorem cbStep_char (lim : AListK String EquipmentLayoutInfo)
    (bl : AListK Nat ℚ) (acc : PosMap × AListK String ℚ)
    (kv : String × EquipmentLayoutInfo) :
    (aget acc.1 kv.2.equipment.id = none ∧ enforceCBStep lim bl acc kv = acc)
    ∨ ∃ pos t, aget acc.1 kv.2.equipment.id = some pos
        ∧ aget (enforceCBStep lim bl acc kv).2
            (getTypeAlignmentKey kv.2 lim) = some t
        ∧ (enforceCBStep lim bl acc kv).1
            = if |pos.y - t| > (1/2 : ℚ) then
                aset acc.1 kv.2.equipment.id ⟨pos.x, t⟩
              else acc.1 := by
  cases h0 : aget acc.1 kv.2.equipment.id with
  | none => exact Or.inl ⟨rfl, by simp only [enforceCBStep, h0]⟩
  | some pos =>
      by_cases hk : ahas acc.2 (getTypeAlignmentKey kv.2 lim) = true
      · rcases Option.isSome_iff_exists.mp hk with ⟨t0, ht0⟩
        refine Or.inr ⟨pos, t0, rfl, ?_, ?_⟩
        · simp only [enforceCBStep, h0]
          rw [if_pos hk, apply_ite Prod.snd]
          dsimp only
          rw [ite_self]
          exact ht0
        · simp only [enforceCBStep, h0]
          rw [if_pos hk, ht0, apply_ite Prod.fst]
          dsimp only
          simp only [Option.getD_some]
      · refine Or.inr ⟨pos, determineBaselineTarget kv.2 acc.1 bl lim,
          rfl, ?_, ?_⟩
        · simp only [enforceCBStep, h0]
          rw [if_neg hk, apply_ite Prod.snd]
          dsimp only
          rw [ite_self, aget_aset, if_pos rfl]
        · simp only [enforceCBStep, h0]
          rw [if_neg hk, apply_ite Prod.fst]
          dsimp only
          rw [aget_aset, if_pos rfl]
          simp only [Option.getD_some]

/-- The memo component after one enforcement step: unchanged, or extended at
a key it did not yet hold. -/
theorem cbStep_snd_char (lim : AListK String EquipmentLayoutInfo)
    (bl : AListK Nat ℚ) (acc : PosMap × AListK String ℚ)
    (kv : String × EquipmentLayoutInfo) :
    (enforceCBStep lim bl acc kv).2 = acc.2
    ∨ (ahas acc.2 (getTypeAlignmentKey kv.2 lim) = false
       ∧ (enforceCBStep lim bl acc kv).2
         = aset acc.2 (getTypeAlignmentKey kv.2 lim)
             (determineBaselineTarget kv.2 acc.1 bl lim)) := by
  simp only [enforceCBStep]
  split
  · exact Or.inl rfl
  · by_cases hk : ahas acc.2 (getTypeAlignmentKey kv.2 lim) = true
    · left
      rw [if_pos hk, apply_ite Prod.snd]
      dsimp only
      rw [ite_self]
    · right
      refine ⟨by simpa using hk, ?_⟩
      rw [if_neg hk, apply_ite Prod.snd]
      dsimp only
      rw [ite_self]

/-- One enforcement step never changes or drops a memoised category
baseline: targets are written only for keys not yet present. -/
theorem cbStep_baseline_persist (lim : AListK String EquipmentLayoutInfo)
    (bl : AListK Nat ℚ) (acc : PosMap × AListK String ℚ)
    (kv : String × EquipmentLayoutInfo) (k : String) (t : ℚ)
    (h : aget acc.2 k = some t) :
    aget (enforceCBStep lim bl acc kv).2 k = some t := by
  rcases cbStep_snd_char lim bl acc kv with hc | ⟨hk, hc⟩
  · rw [hc]; exact h
  · have hnone : aget acc.2 (getTypeAlignmentKey kv.2 lim) = none := by
      cases hg : aget acc.2 (getTypeAlignmentKey kv.2 lim) with
      | none => rfl
      | some _ => simp [ahas, hg] at hk
    have hne : getTypeAlignmentKey kv.2 lim ≠ k := by
      intro he; rw [he, h] at hnone; cases hnone
    rw [hc, aget_aset, if_neg hne]; exact h

/-- Baselines memoised before a fold survive the whole fold unchanged. -/
theorem cbFold_baseline_persist (lim : AListK String EquipmentLayoutInfo)
    (bl : AListK Nat ℚ) :
    ∀ (l : List (String × EquipmentLayoutInfo))
      (acc : PosMap × AListK String ℚ) (k : String) (t : ℚ),
      aget acc.2 k = some t →
      aget (l.foldl (enforceCBStep lim bl) acc).2 k = some t := by
  intro l
  induction l with
  | nil => intro acc k t h; exact h
  | cons hd tl ih =>
      intro acc k t h
      exact ih (enforceCBStep lim bl acc hd) k t
        (cbStep_baseline_persist lim bl acc hd k t h)

/-- A step only ever rewrites the position of its own equipment id. -/
theorem cbStep_other_id (lim : AListK String EquipmentLayoutInfo)
    (bl : AListK Nat ℚ) (acc : PosMap × AListK String ℚ)
    (kv : String × EquipmentLayoutInfo) (e : String)
    (h : e ≠ kv.2.equipment.id) :
    aget (enforceCBStep lim bl acc kv).1 e = aget acc.1 e := by
  rcases cbStep_char lim bl acc kv with ⟨h0, hstep⟩ | ⟨pos, t, h0, ht, hfst⟩
  · rw [hstep]
  · rw [hfst]
    split
    · rw [aget_aset, if_neg (fun he => h he.symm)]
    · rfl

/-- Positions of ids foreign to the folded list are untouched. -/
theorem cbFold_other_ids (lim : AListK String EquipmentLayoutInfo)
    (bl : AListK Nat ℚ) :
    ∀ (l : List (String × EquipmentLayoutInfo))
      (acc : PosMap × AListK String ℚ) (e : String),
      (∀ kv ∈ l, e ≠ kv.2.equipment.id) →
      aget (l.foldl (enforceCBStep lim bl) acc).1 e = aget acc.1 e := by
  intro l
  induction l with
  | nil => intro acc e _; rfl
  | cons hd tl ih =>
      intro acc e hids
      rw [List.foldl_cons,
        ih (enforceCBStep lim bl acc hd) e (fun kv hkv => hids kv (.tail _ hkv)),
        cbStep_other_id lim bl acc hd e (hids hd (.head _))]

/-- After its own step, a node with a position sits within the 0.5px snap
tolerance of the baseline memoised for its alignment key. -/
theorem cbStep_aligned (lim : AListK String EquipmentLayoutInfo)
    (bl : AListK Nat ℚ) (acc : PosMap × AListK String ℚ)
    (kv : String × EquipmentLayoutInfo) (p : Position)
    (h : aget (enforceCBStep lim bl acc kv).1 kv.2.equipment.id = some p) :
    ∃ t, aget (enforceCBStep lim bl acc kv).2
        (getTypeAlignmentKey kv.2 lim) = some t ∧ |p.y - t| ≤ 1/2 := by
  rcases cbStep_char lim bl acc kv with ⟨h0, hstep⟩ | ⟨pos, t, h0, ht, hfst⟩
  · rw [hstep, h0] at h
    exact Option.noConfusion h
  · refine ⟨t, ht, ?_⟩
    rw [hfst] at h
    split at h
    · rw [aget_aset, if_pos rfl] at h
      injection h with he
      rw [← he]
      show |t - t| ≤ 1/2
      rw [sub_self, abs_zero]
      norm_num
    · rename_i hle
      rw [h0] at h
      injection h with he
      subst he
      exact not_lt.mp hle


/-- Once a node has been processed by the fold, its final position sits
within the snap tolerance of the baseline recorded for its alignment key. -/
theorem cbFold_aligned (lim : AListK String EquipmentLayoutInfo)
    (bl : AListK Nat ℚ) :
    ∀ (l : List (String × EquipmentLayoutInfo))
      (acc : PosMap × AListK String ℚ),
      (l.map Prod.fst).Nodup →
      (∀ kv ∈ l, kv.1 = kv.2.equipment.id) →
      ∀ kv ∈ l, ∀ p,
        aget (l.foldl (enforceCBStep lim bl) acc).1 kv.2.equipment.id
          = some p →
        ∃ t, aget (l.foldl (enforceCBStep lim bl) acc).2
            (getTypeAlignmentKey kv.2 lim) = some t ∧ |p.y - t| ≤ 1/2 := by
  intro l
  induction l with
  | nil => intro acc _ _ kv hkv; cases hkv
  | cons hd tl ih =>
      intro acc hnd hid kv hkv p hp
      rw [List.foldl_cons] at hp ⊢
      simp only [List.map_cons, List.nodup_cons] at hnd
      rcases List.mem_cons.mp hkv with he | htl
      · subst he
        have hne : ∀ kv' ∈ tl, kv.2.equipment.id ≠ kv'.2.equipment.id := by
          intro kv' hkv' heq
          exact hnd.1 (by
            rw [hid kv (.head _), heq, ← hid kv' (.tail _ hkv')]
            exact List.mem_map.mpr ⟨kv', hkv', rfl⟩)
        rw [cbFold_other_ids lim bl tl (enforceCBStep lim bl acc kv)
          kv.2.equipment.id hne] at hp
        rcases cbStep_aligned lim bl acc kv p hp with ⟨t, ht, hb⟩
        exact ⟨t, cbFold_baseline_persist lim bl tl _ _ t ht, hb⟩
      · exact ih (enforceCBStep lim bl acc hd) hnd.2
          (fun kv' h' => hid kv' (.tail _ h')) kv htl p hp

/-- C2 (amended): the shipped pipeline does not give every level a shared
baseline (its enforcement call is disabled), but the standalone
`enforceCategoryBaselines` pass does align by category: any two nodes of a
duplicate-free layout map that share a `getTypeAlignmentKey` finish within
1px of each other vertically. -/
theorem claimC2_categoryAlignment (positions : PosMap)
    (lim : AListK String EquipmentLayoutInfo) (baselines : AListK Nat ℚ)
    (hnd : (lim.map Prod.fst).Nodup)
    (hid : ∀ kv ∈ lim, kv.1 = kv.2.equipment.id) :
    ∀ kv1 ∈ lim, ∀ kv2 ∈ lim,
      getTypeAlignmentKey kv1.2 lim = getTypeAlignmentKey kv2.2 lim →
      ∀ p1 p2,
        aget (enforceCategoryBaselines positions lim baselines)
          kv1.2.equipment.id = some p1 →
        aget (enforceCategoryBaselines positions lim baselines)
          kv2.2.equipment.id = some p2 →
        |p1.y - p2.y| ≤ 1 := by
  intro kv1 h1 kv2 h2 hkey p1 p2 hp1 hp2
  simp only [enforceCategoryBaselines] at hp1 hp2
  rcases cbFold_aligned lim baselines lim (positions, []) hnd hid kv1 h1 p1 hp1
    with ⟨t1, ht1, hb1⟩
  rcases cbFold_aligned lim baselines lim (positions, []) hnd hid kv2 h2 p2 hp2
    with ⟨t2, ht2, hb2⟩
  rw [hkey] at ht1
  rw [ht1] at ht2
  injection ht2 with he
  subst he
  calc |p1.y - p2.y| ≤ |p1.y - t1| + |t1 - p2.y| := abs_sub_le _ _ _
    _ ≤ 1/2 + 1/2 := add_le_add hb1 (by rw [abs_sub_comm]; exact hb2)
    _ = 1 := by norm_num


/-- C2 witness: two DISTRIBUTION-key UPS nodes entering 100px apart on one
row are both snapped by the standalone pass onto the shared -150 baseline,
hence 0px apart vertically. -/
theorem claimC2_witness :
    aget (enforceCategoryBaselines pmTwoUps limTwoUps []) "u1"
      = some ⟨0, -150⟩
    ∧ aget (enforceCategoryBaselines pmTwoUps limTwoUps []) "u2"
      = some ⟨100, -150⟩
    ∧ |(⟨0, -150⟩ : Position).y - (⟨100, -150⟩ : Position).y| ≤ 1 :=
  have h1 : aget (enforceCategoryBaselines pmTwoUps limTwoUps [])
      infoUpsA.equipment.id = some ⟨0, -150⟩ := by decide
  have h2 : aget (enforceCategoryBaselines pmTwoUps limTwoUps [])
      infoUpsB.equipment.id = some ⟨100, -150⟩ := by decide
  ⟨h1, h2,
    claimC2_categoryAlignment pmTwoUps limTwoUps [] (by decide) (by decide)
      ("u1", infoUpsA) (by simp [limTwoUps]) ("u2", infoUpsB)
      (by simp [limTwoUps]) (by decide) ⟨0, -150⟩ ⟨100, -150⟩ h1 h2⟩


/-- `closestStep` returns one of its two arguments. -/
theorem closestStep_cases (best cand : Equip) :
    closestStep best cand = best ∨ closestStep best cand = cand := by
  simp only [closestStep]
  split
  · exact Or.inr rfl
  · split
    · split
      · exact Or.inr rfl
      · exact Or.inl rfl
    · exact Or.inl rfl

/-- `closestStep` is reflexive. -/
theorem closestStep_self (b : Equip) : closestStep b b = b := by
  rcases closestStep_cases b b with h | h <;> exact h

/-- The survivor of one reduce step is at most as deep as either input. -/
theorem closestStep_level_le (best cand : Equip) :
    (closestStep best cand).level ≤ best.level
    ∧ (closestStep best cand).level ≤ cand.level := by
  simp only [closestStep]
  split
  · rename_i h
    exact ⟨le_of_lt h, le_refl _⟩
  · split
    · rename_i h1 h2
      split
      · exact ⟨le_of_eq h2, le_refl _⟩
      · exact ⟨le_refl _, le_of_eq h2.symm⟩
    · rename_i h1 h2
      exact ⟨le_refl _, by omega⟩

/-- An S2-branched incumbent is only displaced by a strictly closer
candidate. -/
theorem closestStep_s2_best (best cand : Equip)
    (hs2 : memberBranchOf best = some "S2") :
    closestStep best cand = best
    ∨ (closestStep best cand = cand ∧ cand.level < best.level) := by
  simp only [closestStep]
  split
  · rename_i h
    exact Or.inr ⟨rfl, h⟩
  · split
    · split
      · rename_i hc
        rw [Bool.and_eq_true] at hc
        have hnb : memberBranchOf best ≠ some "S2" :=
          of_decide_eq_true hc.2
        exact absurd hs2 hnb
      · exact Or.inl rfl
    · exact Or.inl rfl

/-- An S2-branched candidate that is at least as close as the incumbent
leaves an S2-branched survivor at the candidate's level. -/
theorem closestStep_s2_cand (best cand : Equip)
    (hs2 : memberBranchOf cand = some "S2") (hle : cand.level ≤ best.level) :
    memberBranchOf (closestStep best cand) = some "S2"
    ∧ (closestStep best cand).level = cand.level := by
  simp only [closestStep]
  split
  · exact ⟨hs2, rfl⟩
  · rename_i h1
    have heq : cand.level = best.level := le_antisymm hle (not_lt.mp h1)
    rw [if_pos heq]
    split
    · exact ⟨hs2, rfl⟩
    · rename_i hc
      have hbest : memberBranchOf best = some "S2" := by
        by_contra hnb
        exact hc (by
          rw [Bool.and_eq_true]
          exact ⟨decide_eq_true hs2, decide_eq_true hnb⟩)
      exact ⟨hbest, heq.symm⟩

/-- Invariant of the `closestToSelected` reduce: the survivor is drawn
from the inputs, attains the minimum level, and is S2-branched whenever
any input at the surviving level is. -/
theorem closestFold_inv :
    ∀ (ms : List Equip) (best : Equip),
      (ms.foldl closestStep best = best ∨ ms.foldl closestStep best ∈ ms)
      ∧ (ms.foldl closestStep best).level ≤ best.level
      ∧ (∀ x ∈ ms, (ms.foldl closestStep best).level ≤ x.level)
      ∧ ((memberBranchOf best = some "S2"
            ∧ (ms.foldl closestStep best).level = best.level)
          → memberBranchOf (ms.foldl closestStep best) = some "S2")
      ∧ (∀ x ∈ ms, x.level = (ms.foldl closestStep best).level
          → memberBranchOf x = some "S2"
          → memberBranchOf (ms.foldl closestStep best) = some "S2") := by
  intro ms
  induction ms with
  | nil =>
      intro best
      exact ⟨Or.inl rfl, le_refl _,
        fun x hx => absurd hx (List.not_mem_nil x),
        fun h => h.1,
        fun x hx => absurd hx (List.not_mem_nil x)⟩
  | cons y ys ih =>
      intro best
      rw [List.foldl_cons]
      obtain ⟨ih1, ih2, ih3, ih4, ih5⟩ := ih (closestStep best y)
      obtain ⟨hb1, hb2⟩ := closestStep_level_le best y
      refine ⟨?_, ih2.trans hb1, ?_, ?_, ?_⟩
      · rcases ih1 with h | h
        · rcases closestStep_cases best y with hc | hc
          · exact Or.inl (by rw [h, hc])
          · exact Or.inr (by rw [h, hc]; exact .head _)
        · exact Or.inr (.tail _ h)
      · intro x hx
        rcases List.mem_cons.mp hx with he | hm
        · subst he
          exact ih2.trans hb2
        · exact ih3 x hm
      · rintro ⟨hs2, hlev⟩
        rcases closestStep_s2_best best y hs2 with hc | ⟨hc, hlt⟩
        · refine ih4 ⟨by rw [hc]; exact hs2, ?_⟩
          rw [hc] at hlev ⊢
          exact hlev
        · have hcl : (closestStep best y).level = y.level := by rw [hc]
          omega
      · intro x hx hxl hxs2
        rcases List.mem_cons.mp hx with he | hm
        · subst x
          have hyle : y.level ≤ best.level := by omega
          obtain ⟨hs2', hlev'⟩ := closestStep_s2_cand best y hxs2 hyle
          exact ih4 ⟨hs2', by omega⟩
        · exact ih5 x hm hxl hxs2

/-- Inserting into a sorted list grows its length by one. -/
theorem insertByCmp_length {α : Type} (cmp : α → α → Int) (x : α) :
    ∀ l : List α, (insertByCmp cmp x l).length = l.length + 1 := by
  intro l
  induction l with
  | nil => rfl
  | cons y ys ih =>
      simp only [insertByCmp]
      split
      · rfl
      · simp [ih]

/-- The stable comparator sort preserves length. -/
theorem sortByCmp_length {α : Type} (cmp : α → α → Int) (l : List α) :
    (sortByCmp cmp l).length = l.length := by
  suffices h : ∀ (l acc : List α),
      (l.foldl (fun acc x => insertByCmp cmp x acc) acc).length
        = acc.length + l.length by
    simpa [sortByCmp] using h l []
  intro l
  induction l with
  | nil => intro acc; simp
  | cons y ys ih =>
      intro acc
      rw [List.foldl_cons, ih, insertByCmp_length]
      simp only [List.length_cons]
      omega

/-- Every representative emitted by one group step is a ring-bus node whose
level is the one of the member its reduce selected. -/
theorem buildLoopRepStep_processed (cm : ConnectionMap) (st : LoopRepState)
    (kg : String × LoopGroupAcc) :
    ∀ r ∈ (buildLoopRepStep cm st kg).processed,
      r ∈ st.processed
      ∨ (r.isLoopGroup = true ∧ 2 ≤ r.loopMembers.length
         ∧ ∃ c, closestMember r.loopMembers = some c ∧ r.level = c.level) := by
  intro r hr
  simp only [buildLoopRepStep] at hr
  split at hr
  · rename_i hgt
    dsimp only at hr
    rcases List.mem_append.mp hr with h | h
    · exact Or.inl h
    · right
      rw [List.mem_singleton] at h
      subst h
      refine ⟨rfl, ?_, ?_⟩
      · dsimp only
        rw [sortByCmp_length]
        omega
      · dsimp only
        cases hs : sortByCmp (fun a b => cmpStr a.name b.name)
            kg.2.equipment with
        | nil =>
            have := sortByCmp_length (fun a b => cmpStr a.name b.name)
              kg.2.equipment
            rw [hs] at this
            simp at this
            omega
        | cons hd tl =>
            exact ⟨(hd :: tl).foldl closestStep hd, rfl, rfl⟩
  · exact Or.inl hr

/-- C5 (amended): the reduce that elects a loop group's anchor member picks
a member of minimum level, upgrading to an S2-branched member on level
ties, and every ring-bus representative `buildLoopReps` emits starts at the
level of the member its reduce elected (the later level-fix pass may still
re-derive representative levels from consolidated parents). -/
theorem claimC5_loopRepLevel :
    (∀ (m : Equip) (ms : List Equip), ∃ c,
        closestMember (m :: ms) = some c ∧ c ∈ m :: ms
        ∧ (∀ x ∈ m :: ms, c.level ≤ x.level)
        ∧ ((∃ x ∈ m :: ms, x.level = c.level
              ∧ memberBranchOf x = some "S2")
            → memberBranchOf c = some "S2"))
    ∧ ∀ (groups : AListK String LoopGroupAcc) (cm : ConnectionMap),
        ∀ r ∈ (buildLoopReps groups cm).processed,
          r.isLoopGroup = true ∧ 2 ≤ r.loopMembers.length
          ∧ ∃ c, closestMember r.loopMembers = some c
              ∧ r.level = c.level := by
  constructor
  · intro m ms
    have hself : (m :: ms).foldl closestStep m = ms.foldl closestStep m := by
      rw [List.foldl_cons, closestStep_self]
    obtain ⟨h1, h2, h3, h4, h5⟩ := closestFold_inv ms m
    refine ⟨(m :: ms).foldl closestStep m, rfl, ?_, ?_, ?_⟩
    · rw [hself]
      rcases h1 with h | h
      · rw [h]; exact .head _
      · exact .tail _ h
    · intro x hx
      rw [hself]
      rcases List.mem_cons.mp hx with he | hm
      · subst he; exact h2
      · exact h3 x hm
    · rintro ⟨x, hx, hxl, hxs2⟩
      rw [hself] at hxl ⊢
      rcases List.mem_cons.mp hx with he | hm
      · subst he
        exact h4 ⟨hxs2, hxl.symm⟩
      · exact h5 x hm hxl hxs2
  · have hfold : ∀ (l : List (String × LoopGroupAcc)) (cm : ConnectionMap)
        (st : LoopRepState),
        (∀ r ∈ st.processed,
          r.isLoopGroup = true ∧ 2 ≤ r.loopMembers.length
          ∧ ∃ c, closestMember r.loopMembers = some c ∧ r.level = c.level) →
        ∀ r ∈ (l.foldl (buildLoopRepStep cm) st).processed,
          r.isLoopGroup = true ∧ 2 ≤ r.loopMembers.length
          ∧ ∃ c, closestMember r.loopMembers = some c ∧ r.level = c.level := by
      intro l
      induction l with
      | nil => intro cm st hst; exact hst
      | cons kg tl ih =>
          intro cm st hst
          rw [List.foldl_cons]
          refine ih cm (buildLoopRepStep cm st kg) ?_
          intro r hr
          rcases buildLoopRepStep_processed cm st kg r hr with h | h
          · exact hst r h
          · exact h
    intro groups cm
    exact hfold groups cm ⟨[], [], []⟩ (fun r hr => absurd hr (List.not_mem_nil r))

/-- C5 witness: on the two CDS ring members the elected anchor exists, is a
member of minimal level with the S2 tie rule, and is concretely CDS-01R-A. -/
theorem claimC5_witness :
    (∃ c, closestMember [eqCdsA, eqCdsB] = some c ∧ c ∈ [eqCdsA, eqCdsB]
      ∧ (∀ x ∈ [eqCdsA, eqCdsB], c.level ≤ x.level)
      ∧ ((∃ x ∈ [eqCdsA, eqCdsB], x.level = c.level
            ∧ memberBranchOf x = some "S2")
          → memberBranchOf c = some "S2"))
    ∧ closestMember [eqCdsA, eqCdsB] = some eqCdsA :=
  ⟨claimC5_loopRepLevel.1 eqCdsA [eqCdsB], rfl⟩


/-- Adding one id to a visited set cannot make an unrelated id visited. -/
theorem shas_sadd_false (s : StrSet) (e x : String) (hx : shas s x = false)
    (hne : x ≠ e) : shas (sadd s e) x = false := by
  simp only [sadd]
  split
  · exact hx
  · show List.elem x (s ++ [e]) = false
    rw [List.elem_eq_mem]
    rw [show shas s x = List.elem x s from rfl, List.elem_eq_mem] at hx
    simp only [decide_eq_false_iff_not, List.mem_append,
      List.mem_singleton] at hx ⊢
    rintro (h | h)
    · exact hx h
    · exact hne h

/-- Unpacking a witnessed upstream hop into its map entry and relation. -/
theorem upstreamLinkedB_elim (cm : ConnectionMap) (a b : String)
    (h : upstreamLinkedB cm a b = true) :
    ∃ conns, aget cm a = some conns ∧ ∃ u ∈ conns.upstream, u.id = b := by
  unfold upstreamLinkedB at h
  cases hg : aget cm a with
  | none => rw [hg] at h; cases h
  | some e =>
      rw [hg] at h
      rcases List.any_eq_true.mp h with ⟨u, hu, hub⟩
      exact ⟨e, rfl, u, hu, by simpa using hub⟩

/-- Unpacking a witnessed downstream hop into its map entry and relation. -/
theorem downstreamLinkedB_elim (cm : ConnectionMap) (a b : String)
    (h : downstreamLinkedB cm a b = true) :
    ∃ conns, aget cm a = some conns ∧ ∃ u ∈ conns.downstream, u.id = b := by
  unfold downstreamLinkedB at h
  cases hg : aget cm a with
  | none => rw [hg] at h; cases h
  | some e =>
      rw [hg] at h
      rcases List.any_eq_true.mp h with ⟨u, hu, hub⟩
      exact ⟨e, rfl, u, hu, by simpa using hub⟩

/-- Every node the upstream traversal emits carries a level between the
entry level and the hard ceiling of 10. -/
theorem traverseUpstream_levels :
    ∀ (fuel : Nat) (eid : String) (cm : ConnectionMap) (v : StrSet)
      (level : Nat) (path : List String) (b : Option String),
      ∀ e ∈ traverseUpstream fuel eid cm v level path b,
        level ≤ e.level ∧ e.level ≤ 10 := by
  intro fuel
  induction fuel with
  | zero => intro eid cm v level path b e he; cases he
  | succ f ih =>
      intro eid cm v level path b e he
      simp only [traverseUpstream] at he
      split at he
      · cases he
      · split at he
        · cases he
        · rename_i h10 _
          split at he
          · cases he
          · rcases List.mem_flatMap.mp he with ⟨u, hu, hfu⟩
            rcases List.mem_cons.mp hfu with he2 | he2
            · subst he2
              refine ⟨?_, ?_⟩ <;> dsimp only <;> omega
            · obtain ⟨ha, hb⟩ := ih u.id cm _ (level + 1) _ _ e he2
              exact ⟨by omega, hb⟩

/-- Every node the downstream traversal emits carries a level between the
entry level and the hard ceiling of 10. -/
theorem traverseDownstream_levels :
    ∀ (fuel : Nat) (eid : String) (cm : ConnectionMap) (v : StrSet)
      (level : Nat) (path : List String),
      ∀ e ∈ traverseDownstream fuel eid cm v level path,
        level ≤ e.level ∧ e.level ≤ 10 := by
  intro fuel
  induction fuel with
  | zero => intro eid cm v level path e he; cases he
  | succ f ih =>
      intro eid cm v level path e he
      simp only [traverseDownstream] at he
      split at he
      · cases he
      · split at he
        · cases he
        · rename_i h10 _
          split at he
          · cases he
          · rcases List.mem_flatMap.mp he with ⟨u, hu, hfu⟩
            rcases List.mem_cons.mp hfu with he2 | he2
            · subst he2
              refine ⟨?_, ?_⟩ <;> dsimp only <;> omega
            · obtain ⟨ha, hb⟩ := ih u.id cm _ (level + 1) _ e he2
              exact ⟨by omega, hb⟩

/-- Along any duplicate-free witnessed upstream chain that fits under the
fuel and the level ceiling, every hop's equipment is emitted at its hop
level. -/
theorem traverseUpstream_includes :
    ∀ (chain : List String) (cm : ConnectionMap) (eid : String) (v : StrSet)
      (fuel level : Nat) (path : List String) (b : Option String) (k : Nat),
      upstreamPathB cm (eid :: chain) = true →
      (eid :: chain).Nodup →
      (∀ x ∈ eid :: chain, shas v x = false) →
      chain.length ≤ fuel →
      level + chain.length ≤ 11 →
      k < chain.length →
      ∃ e ∈ traverseUpstream fuel eid cm v level path b,
        e.id = chain.getD k "" ∧ e.level = level + k := by
  intro chain
  induction chain with
  | nil =>
      intro cm eid v fuel level path b k _ _ _ _ _ hk
      simp at hk
  | cons c rest ih =>
      intro cm eid v fuel level path b k hpath hnd hv hfuel hlev hk
      cases fuel with
      | zero => simp [List.length_cons] at hfuel
      | succ f =>
          simp only [upstreamPathB, Bool.and_eq_true] at hpath
          obtain ⟨hlink, hrest⟩ := hpath
          obtain ⟨conns, hg, u, hu, huid⟩ := upstreamLinkedB_elim cm eid c hlink
          have hv0 : shas v eid = false := hv eid (.head _)
          have h10 : ¬ level > 10 := by
            simp only [List.length_cons] at hlev
            omega
          simp only [traverseUpstream]
          rw [if_neg h10, if_neg (by simp [hv0]), hg]
          cases k with
          | zero =>
              refine ⟨_, List.mem_flatMap.mpr ⟨u, hu, List.mem_cons_self _ _⟩,
                ?_, ?_⟩
              · dsimp only
                simpa using huid
              · dsimp only
                omega
          | succ k' =>
              have hnd2 := List.nodup_cons.mp hnd
              have hv' : ∀ x ∈ c :: rest,
                  shas (if ((if u.connectionType = "" then "normal"
                      else u.connectionType) == "bypass") = true then v
                    else sadd v eid) x = false := by
                intro x hx
                have hbase := hv x (.tail _ hx)
                have hxe : x ≠ eid := by
                  intro he
                  exact hnd2.1 (by rw [← he]; exact hx)
                split <;> split <;>
                  first
                    | exact hbase
                    | exact shas_sadd_false v eid x hbase hxe
              have hlen : rest.length ≤ f := by
                simp only [List.length_cons] at hfuel
                omega
              have hlev' : (level + 1) + rest.length ≤ 11 := by
                simp only [List.length_cons] at hlev
                omega
              obtain ⟨e, he, heid, helev⟩ := ih cm c
                (if ((if u.connectionType = "" then "normal"
                    else u.connectionType) == "bypass") = true then v
                  else sadd v eid)
                f (level + 1) (path ++ [eid])
                (some (match b with
                  | some bb => bb
                  | none => if u.sourceNumber = "" then "S1"
                      else u.sourceNumber))
                k' hrest hnd2.2 hv' hlen hlev'
                (by simpa [List.length_cons] using hk)
              refine ⟨e, List.mem_flatMap.mpr
                ⟨u, hu, List.mem_cons_of_mem _ ?_⟩, heid, by omega⟩
              rw [huid]
              exact he

/-- Along any duplicate-free witnessed downstream chain that fits under the
fuel and the level ceiling, every hop's equipment is emitted at its hop
level. -/
theorem traverseDownstream_includes :
    ∀ (chain : List String) (cm : ConnectionMap) (eid : String) (v : StrSet)
      (fuel level : Nat) (path : List String) (k : Nat),
      downstreamPathB cm (eid :: chain) = true →
      (eid :: chain).Nodup →
      (∀ x ∈ eid :: chain, shas v x = false) →
      chain.length ≤ fuel →
      level + chain.length ≤ 11 →
      k < chain.length →
      ∃ e ∈ traverseDownstream fuel eid cm v level path,
        e.id = chain.getD k "" ∧ e.level = level + k := by
  intro chain
  induction chain with
  | nil =>
      intro cm eid v fuel level path k _ _ _ _ _ hk
      simp at hk
  | cons c rest ih =>
      intro cm eid v fuel level path k hpath hnd hv hfuel hlev hk
      cases fuel with
      | zero => simp [List.length_cons] at hfuel
      | succ f =>
          simp only [downstreamPathB, Bool.and_eq_true] at hpath
          obtain ⟨hlink, hrest⟩ := hpath
          obtain ⟨conns, hg, u, hu, huid⟩ := downstreamLinkedB_elim cm eid c hlink
          have hv0 : shas v eid = false := hv eid (.head _)
          have h10 : ¬ level > 10 := by
            simp only [List.length_cons] at hlev
            omega
          simp only [traverseDownstream]
          rw [if_neg h10, if_neg (by simp [hv0]), hg]
          cases k with
          | zero =>
              refine ⟨_, List.mem_flatMap.mpr ⟨u, hu, List.mem_cons_self _ _⟩,
                ?_, ?_⟩
              · dsimp only
                simpa using huid
              · dsimp only
                omega
          | succ k' =>
              have hnd2 := List.nodup_cons.mp hnd
              have hv' : ∀ x ∈ c :: rest,
                  shas (if ((if u.connectionType = "" then "normal"
                      else u.connectionType) == "bypass") = true then v
                    else sadd v eid) x = false := by
                intro x hx
                have hbase := hv x (.tail _ hx)
                have hxe : x ≠ eid := by
                  intro he
                  exact hnd2.1 (by rw [← he]; exact hx)
                split <;> split <;>
                  first
                    | exact hbase
                    | exact shas_sadd_false v eid x hbase hxe
              have hlen : rest.length ≤ f := by
                simp only [List.length_cons] at hfuel
                omega
              have hlev' : (level + 1) + rest.length ≤ 11 := by
                simp only [List.length_cons] at hlev
                omega
              obtain ⟨e, he, heid, helev⟩ := ih cm c
                (if ((if u.connectionType = "" then "normal"
                    else u.connectionType) == "bypass") = true then v
                  else sadd v eid)
                f (level + 1) (path ++ [eid])
                k' hrest hnd2.2 hv' hlen hlev'
                (by simpa [List.length_cons] using hk)
              refine ⟨e, List.mem_flatMap.mpr
                ⟨u, hu, List.mem_cons_of_mem _ ?_⟩, heid, by omega⟩
              rw [huid]
              exact he

/-- C9: both traversals respect the 10-hop ceiling — every emitted node has
a level between the entry level and 10 (so with the pipeline's entry level
of 1 nothing beyond hop 10 appears) — and conversely every equipment on a
duplicate-free witnessed chain of at most 10 hops from the selected node is
emitted at its hop level by the pipeline's fuel-11, level-1 calls. -/
theorem claimC9_depthCeiling :
    (∀ (fuel : Nat) (eid : String) (cm : ConnectionMap) (v : StrSet)
        (level : Nat) (path : List String) (b : Option String),
      ∀ e ∈ traverseUpstream fuel eid cm v level path b,
        level ≤ e.level ∧ e.level ≤ 10)
    ∧ (∀ (fuel : Nat) (eid : String) (cm : ConnectionMap) (v : StrSet)
        (level : Nat) (path : List String),
      ∀ e ∈ traverseDownstream fuel eid cm v level path,
        level ≤ e.level ∧ e.level ≤ 10)
    ∧ (∀ (cm : ConnectionMap) (sid : String) (chain : List String) (k : Nat),
      upstreamPathB cm (sid :: chain) = true →
      (sid :: chain).Nodup →
      chain.length ≤ 10 →
      k < chain.length →
      ∃ e ∈ traverseUpstream 11 sid cm [] 1 [] none,
        e.id = chain.getD k "" ∧ e.level = 1 + k)
    ∧ (∀ (cm : ConnectionMap) (sid : String) (chain : List String) (k : Nat),
      downstreamPathB cm (sid :: chain) = true →
      (sid :: chain).Nodup →
      chain.length ≤ 10 →
      k < chain.length →
      ∃ e ∈ traverseDownstream 11 sid cm [] 1 [],
        e.id = chain.getD k "" ∧ e.level = 1 + k) := by
  refine ⟨traverseUpstream_levels, traverseDownstream_levels, ?_, ?_⟩
  · intro cm sid chain k hpath hnd hlen hk
    exact traverseUpstream_includes chain cm sid [] 11 1 [] none k hpath hnd
      (fun x _ => rfl) (by omega) (by omega) hk
  · intro cm sid chain k hpath hnd hlen hk
    exact traverseDownstream_includes chain cm sid [] 11 1 [] k hpath hnd
      (fun x _ => rfl) (by omega) (by omega) hk

/-- C9 witness: on the paired-substation fixture every upstream node sits
within levels 1–10, and the one-hop chain sel→mds1 (upstream) and mds1→sel
(downstream) are emitted at hop level 1. -/
theorem claimC9_witness :
    (∀ e ∈ traverseUpstream 11 "sel" (buildConnectionMap exPairConnections)
        [] 1 [] none, 1 ≤ e.level ∧ e.level ≤ 10)
    ∧ (∃ e ∈ traverseUpstream 11 "sel" (buildConnectionMap exPairConnections)
        [] 1 [] none, e.id = ["mds1"].getD 0 "" ∧ e.level = 1 + 0)
    ∧ (∃ e ∈ traverseDownstream 11 "mds1"
        (buildConnectionMap exPairConnections) [] 1 [],
        e.id = ["sel"].getD 0 "" ∧ e.level = 1 + 0) :=
  ⟨fun e he => claimC9_depthCeiling.1 11 "sel"
      (buildConnectionMap exPairConnections) [] 1 [] none e he,
   claimC9_depthCeiling.2.2.1 (buildConnectionMap exPairConnections) "sel"
      ["mds1"] 0 (by decide) (by decide) (by decide) (by decide),
   claimC9_depthCeiling.2.2.2 (buildConnectionMap exPairConnections) "mds1"
      ["sel"] 0 (by decide) (by decide) (by decide) (by decide)⟩


/-- A span-map write preserves the span invariant when the written value is
itself a suppressed member's or reserves a node-width. -/
theorem spanMapOK_aset (mids : StrSet) (m : SpanMap) (i : String)
    (s : SubtreeDimensions) (hok : spanMapOK mids m)
    (hs : shas mids i = true ∨ nodeWidth ≤ s.width) :
    spanMapOK mids (aset m i s) := by
  intro j t hj
  rw [aget_aset] at hj
  split at hj
  · rename_i he
    injection hj with he2
    subst he2
    subst he
    exact hs
  · exact hok j t hj

/-- A suppressed ring member is spanned as zero width and zero bias. -/
theorem computeSubtreeSpan_member (fuel : Nat) (nodeId : String)
    (tree : PlacementTree) (m : SpanMap) (v mids : StrSet)
    (node : PlacementNode)
    (hmemo : aget m nodeId = none) (hvis : shas v nodeId = false)
    (hnode : aget tree.nodes nodeId = some node)
    (hmem : shas mids nodeId = true) :
    computeSubtreeSpan (fuel + 1) nodeId tree m v mids
      = (⟨0, 0, 0⟩, aset m nodeId ⟨0, 0, 0⟩) := by
  simp [computeSubtreeSpan, hmemo, hvis, hnode, hmem]

/-- A ring-bus representative is spanned by the wider of its two branch
groups, clamped between one and three node-widths and split evenly. -/
theorem computeSubtreeSpan_loopGroup (fuel : Nat) (nodeId : String)
    (tree : PlacementTree) (m : SpanMap) (v mids : StrSet)
    (node : PlacementNode)
    (hmemo : aget m nodeId = none) (hvis : shas v nodeId = false)
    (hnode : aget tree.nodes nodeId = some node)
    (hmem : shas mids nodeId = false)
    (hlg : node.info.equipment.isLoopGroup = true) :
    computeSubtreeSpan (fuel + 1) nodeId tree m v mids
      = (let r1 := computeSpanGroup fuel node.children.s1 tree m
            (sadd v nodeId) mids
         let r2 := computeSpanGroup fuel node.children.s2 tree r1.2
            (sadd v nodeId) mids
         let w := max nodeWidth (min (nodeWidth * 3)
            (max (sumGroupWidth r1.1) (sumGroupWidth r2.1)))
         (⟨w, w / 2, w / 2⟩, aset r2.2 nodeId ⟨w, w / 2, w / 2⟩)) := by
  simp [computeSubtreeSpan, computeSpanGroup, hmemo, hvis, hnode, hmem, hlg]

/-- An ordinary in-budget node is spanned by a left bias from its primary
group and a right bias from its secondary group, each at least half a
node-width, the width being their sum. -/
theorem computeSubtreeSpan_ordinary (fuel : Nat) (nodeId : String)
    (tree : PlacementTree) (m : SpanMap) (v mids : StrSet)
    (node : PlacementNode)
    (hmemo : aget m nodeId = none) (hvis : shas v nodeId = false)
    (hnode : aget tree.nodes nodeId = some node)
    (hmem : shas mids nodeId = false)
    (hlg : node.info.equipment.isLoopGroup = false)
    (hlen : ¬ (sadd v nodeId).length > 50) :
    computeSubtreeSpan (fuel + 1) nodeId tree m v mids
      = (let r1 := computeSpanGroup fuel node.children.s1 tree m
            (sadd v nodeId) mids
         let r2 := computeSpanGroup fuel node.children.s2 tree r1.2
            (sadd v nodeId) mids
         let lb := max (nodeWidth / 2) (sumGroupWidth r1.1)
         let rb := max (nodeWidth / 2) (sumGroupWidth r2.1)
         (⟨lb + rb, lb, rb⟩, aset r2.2 nodeId ⟨lb + rb, lb, rb⟩)) := by
  simp [computeSubtreeSpan, computeSpanGroup, hmemo, hvis, hnode, hmem, hlg,
    hlen]

/-- A childless ordinary node is spanned exactly one node-width, split
evenly. -/
theorem computeSubtreeSpan_leaf (fuel : Nat) (nodeId : String)
    (tree : PlacementTree) (m : SpanMap) (v mids : StrSet)
    (node : PlacementNode)
    (hmemo : aget m nodeId = none) (hvis : shas v nodeId = false)
    (hnode : aget tree.nodes nodeId = some node)
    (hmem : shas mids nodeId = false)
    (hlg : node.info.equipment.isLoopGroup = false)
    (hlen : ¬ (sadd v nodeId).length > 50)
    (hs1 : node.children.s1 = []) (hs2 : node.children.s2 = []) :
    (computeSubtreeSpan (fuel + 1) nodeId tree m v mids).1
      = ⟨nodeWidth, nodeWidth / 2, nodeWidth / 2⟩ := by
  rw [computeSubtreeSpan_ordinary fuel nodeId tree m v mids node hmemo hvis
    hnode hmem hlg hlen, hs1, hs2]
  simp [computeSpanGroup, sumGroupWidth]
  norm_num [nodeWidth]

/-- The span pass keeps the invariant that all memoised spans either belong
to suppressed members or reserve at least one node-width, and its result
does so as well. -/
theorem computeSubtreeSpan_ok :
    ∀ (fuel : Nat) (nodeId : String) (tree : PlacementTree) (m : SpanMap)
      (v mids : StrSet), spanMapOK mids m →
      spanMapOK mids (computeSubtreeSpan fuel nodeId tree m v mids).2
      ∧ (shas mids nodeId = true
         ∨ nodeWidth ≤ (computeSubtreeSpan fuel nodeId tree m v mids).1.width)
    := by
  intro fuel
  induction fuel with
  | zero =>
      intro nodeId tree m v mids hok
      simp only [computeSubtreeSpan]
      exact ⟨spanMapOK_aset mids m nodeId fallbackSpan hok
          (Or.inr (by norm_num [fallbackSpan])),
        Or.inr (by norm_num [fallbackSpan])⟩
  | succ f ih =>
      have hfold : ∀ (ids : List String) (tree : PlacementTree)
          (v mids : StrSet) (l : List SubtreeDimensions) (m : SpanMap),
          spanMapOK mids m →
          spanMapOK mids (ids.foldl
            (fun (acc : List SubtreeDimensions × SpanMap) childId =>
              let r := computeSubtreeSpan f childId tree acc.2 v mids
              (acc.1 ++ [r.1], r.2)) (l, m)).2 := by
        intro ids
        induction ids with
        | nil => intro tree v mids l m hok; exact hok
        | cons i is ihg =>
            intro tree v mids l m hok
            rw [List.foldl_cons]
            exact ihg tree v mids
              (l ++ [(computeSubtreeSpan f i tree m v mids).1])
              (computeSubtreeSpan f i tree m v mids).2
              (ih i tree m v mids hok).1
      intro nodeId tree m v mids hok
      simp only [computeSubtreeSpan]
      split
      · rename_i s hs
        exact ⟨hok, hok nodeId s hs⟩
      · rename_i hnone
        split
        · exact ⟨spanMapOK_aset mids m nodeId fallbackSpan hok
              (Or.inr (by norm_num [fallbackSpan])),
            Or.inr (by norm_num [fallbackSpan])⟩
        · split
          · exact ⟨spanMapOK_aset mids m nodeId fallbackSpan hok
                (Or.inr (by norm_num [fallbackSpan])),
              Or.inr (by norm_num [fallbackSpan])⟩
          · rename_i node hnode
            split
            · rename_i hmem
              exact ⟨spanMapOK_aset mids m nodeId ⟨0, 0, 0⟩ hok (Or.inl hmem),
                Or.inl hmem⟩
            · rename_i hmem
              split
              · rename_i hlg
                have h1 := hfold node.children.s1 tree (sadd v nodeId) mids
                  [] m hok
                have h2 := hfold node.children.s2 tree (sadd v nodeId) mids
                  []
                  (node.children.s1.foldl
                    (fun (acc : List SubtreeDimensions × SpanMap) childId =>
                      let r := computeSubtreeSpan f childId tree acc.2
                          (sadd v nodeId) mids
                      (acc.1 ++ [r.1], r.2)) ([], m)).2 h1
                exact ⟨spanMapOK_aset mids _ nodeId _ h2
                    (Or.inr (le_max_left _ _)),
                  Or.inr (le_max_left _ _)⟩
              · rename_i hlg
                split
                · exact ⟨spanMapOK_aset mids m nodeId fallbackSpan hok
                      (Or.inr (by norm_num [fallbackSpan])),
                    Or.inr (by norm_num [fallbackSpan])⟩
                · have h1 := hfold node.children.s1 tree (sadd v nodeId) mids
                    [] m hok
                  have h2 := hfold node.children.s2 tree (sadd v nodeId) mids
                    []
                    (node.children.s1.foldl
                      (fun (acc : List SubtreeDimensions × SpanMap) childId =>
                        let r := computeSubtreeSpan f childId tree acc.2
                            (sadd v nodeId) mids
                        (acc.1 ++ [r.1], r.2)) ([], m)).2 h1
                  have hwid : (nodeWidth : ℚ)
                      ≤ max (nodeWidth / 2) (sumGroupWidth
                          (node.children.s1.foldl
                            (fun (acc : List SubtreeDimensions × SpanMap)
                                childId =>
                              let r := computeSubtreeSpan f childId tree acc.2
                                  (sadd v nodeId) mids
                              (acc.1 ++ [r.1], r.2)) ([], m)).1)
                        + max (nodeWidth / 2) (sumGroupWidth
                          (node.children.s2.foldl
                            (fun (acc : List SubtreeDimensions × SpanMap)
                                childId =>
                              let r := computeSubtreeSpan f childId tree acc.2
                                  (sadd v nodeId) mids
                              (acc.1 ++ [r.1], r.2))
                            ([], (node.children.s1.foldl
                              (fun (acc : List SubtreeDimensions × SpanMap)
                                  childId =>
                                let r := computeSubtreeSpan f childId tree
                                    acc.2 (sadd v nodeId) mids
                                (acc.1 ++ [r.1], r.2)) ([], m)).2)).1) := by
                    calc (nodeWidth : ℚ) = nodeWidth / 2 + nodeWidth / 2 := by
                          norm_num [nodeWidth]
                      _ ≤ _ := add_le_add (le_max_left _ _) (le_max_left _ _)
                  exact ⟨spanMapOK_aset mids _ nodeId _ h2 (Or.inr hwid),
                    Or.inr hwid⟩

/-- C6: the span calculator gives a suppressed member zero width and bias;
a ring-bus node the wider of its branch groups clamped to 1–3 node-widths,
split evenly; an ordinary node a left/right bias of at least half a
node-width biased by its branch groups, summed into its width (a childless
node hence exactly one node-width split evenly); and it maintains that
every contributing memoised span reserves at least one node-width. -/
theorem claimC6_subtreeSpan :
    (∀ (fuel : Nat) (nodeId : String) (tree : PlacementTree) (m : SpanMap)
        (v mids : StrSet) (node : PlacementNode),
      aget m nodeId = none → shas v nodeId = false →
      aget tree.nodes nodeId = some node → shas mids nodeId = true →
      computeSubtreeSpan (fuel + 1) nodeId tree m v mids
        = (⟨0, 0, 0⟩, aset m nodeId ⟨0, 0, 0⟩))
    ∧ (∀ (fuel : Nat) (nodeId : String) (tree : PlacementTree) (m : SpanMap)
        (v mids : StrSet) (node : PlacementNode),
      aget m nodeId = none → shas v nodeId = false →
      aget tree.nodes nodeId = some node → shas mids nodeId = false →
      node.info.equipment.isLoopGroup = true →
      computeSubtreeSpan (fuel + 1) nodeId tree m v mids
        = (let r1 := computeSpanGroup fuel node.children.s1 tree m
              (sadd v nodeId) mids
           let r2 := computeSpanGroup fuel node.children.s2 tree r1.2
              (sadd v nodeId) mids
           let w := max nodeWidth (min (nodeWidth * 3)
              (max (sumGroupWidth r1.1) (sumGroupWidth r2.1)))
           (⟨w, w / 2, w / 2⟩, aset r2.2 nodeId ⟨w, w / 2, w / 2⟩)))
    ∧ (∀ (fuel : Nat) (nodeId : String) (tree : PlacementTree) (m : SpanMap)
        (v mids : StrSet) (node : PlacementNode),
      aget m nodeId = none → shas v nodeId = false →
      aget tree.nodes nodeId = some node → shas mids nodeId = false →
      node.info.equipment.isLoopGroup = false →
      ¬ (sadd v nodeId).length > 50 →
      computeSubtreeSpan (fuel + 1) nodeId tree m v mids
        = (let r1 := computeSpanGroup fuel node.children.s1 tree m
              (sadd v nodeId) mids
           let r2 := computeSpanGroup fuel node.children.s2 tree r1.2
              (sadd v nodeId) mids
           let lb := max (nodeWidth / 2) (sumGroupWidth r1.1)
           let rb := max (nodeWidth / 2) (sumGroupWidth r2.1)
           (⟨lb + rb, lb, rb⟩, aset r2.2 nodeId ⟨lb + rb, lb, rb⟩)))
    ∧ (∀ (fuel : Nat) (nodeId : String) (tree : PlacementTree) (m : SpanMap)
        (v mids : StrSet) (node : PlacementNode),
      aget m nodeId = none → shas v nodeId = false →
      aget tree.nodes nodeId = some node → shas mids nodeId = false →
      node.info.equipment.isLoopGroup = false →
      ¬ (sadd v nodeId).length > 50 →
      node.children.s1 = [] → node.children.s2 = [] →
      (computeSubtreeSpan (fuel + 1) nodeId tree m v mids).1
        = ⟨nodeWidth, nodeWidth / 2, nodeWidth / 2⟩)
    ∧ (∀ (fuel : Nat) (nodeId : String) (tree : PlacementTree) (m : SpanMap)
        (v mids : StrSet), spanMapOK mids m →
      spanMapOK mids (computeSubtreeSpan fuel nodeId tree m v mids).2
      ∧ (shas mids nodeId = true
         ∨ nodeWidth
            ≤ (computeSubtreeSpan fuel nodeId tree m v mids).1.width)) :=
  ⟨computeSubtreeSpan_member, computeSubtreeSpan_loopGroup,
   computeSubtreeSpan_ordinary, computeSubtreeSpan_leaf,
   computeSubtreeSpan_ok⟩

/-- C6 witness: on the concrete placement tree, the suppressed member m1
spans zero, the ring node lg spans one clamped node-width, the leaf spans
one node-width split evenly, and the span result of the root reserves a
node-width under the invariant. -/
theorem claimC6_witness :
    computeSubtreeSpan 3 "m1" treeSpanWitness [] [] ["m1"]
        = (⟨0, 0, 0⟩, aset [] "m1" ⟨0, 0, 0⟩)
    ∧ (computeSubtreeSpan 3 "leaf1" treeSpanWitness [] [] ["m1"]).1
        = ⟨nodeWidth, nodeWidth / 2, nodeWidth / 2⟩
    ∧ (shas ["m1"] "lg" = true
       ∨ nodeWidth
          ≤ (computeSubtreeSpan 3 "lg" treeSpanWitness [] [] ["m1"]).1.width)
    :=
  ⟨claimC6_subtreeSpan.1 2 "m1" treeSpanWitness [] [] ["m1"]
      ⟨"m1", some "lg", infoOfEquip equipMemberW (some "lg"), ⟨[], [], []⟩⟩
      rfl rfl rfl rfl,
   claimC6_subtreeSpan.2.2.2.1 2 "leaf1" treeSpanWitness [] [] ["m1"]
      ⟨"leaf1", some "root", infoOfEquip equipLeafW (some "root"), ⟨[], [], []⟩⟩
      rfl rfl rfl rfl rfl (by decide) rfl rfl,
   (claimC6_subtreeSpan.2.2.2.2 3 "lg" treeSpanWitness [] [] ["m1"]
      (fun i s h => Option.noConfusion h)).2⟩

end PowerFlow
